import Mathlib

/-!
Verification development for the LegalLens backend
(`backend/app/api/comprehensive_analysis.py` and
`backend/app/services/document_ai_service.py`).

The Python code is shallowly embedded: the in-process result store
(`analysis_storage`, a Python dict persisted to a JSON file) is modelled as an
insertion-ordered association list with unique keys, endpoint handlers become
pure functions from their request, the current store, the wall-clock second and
oracles for the external collaborators (the MCP analyzer, the Gemini/PyMuPDF
extractors, the file system and the PDF renderer) to a result record holding
the HTTP response, the updated store and whether a flush to the storage file
happened.  Python string primitives used by the code (`sorted`, `startswith`,
`in`, `strip`, `lower`, decimal formatting of `int(time.time())`) are embedded
as executable functions on `String`/`List Char` below.

Modelling conventions:
* wall-clock time is the integer second `int(time.time())` (a `Nat`); the
  float stored in the `"timestamp"` field is modelled by the same second;
* `str.lower`/`str.strip` are modelled on their ASCII fragment, which is all
  the analysed code exercises;
* the long demo-fixture prose blobs (summaries, definitions, risk narratives)
  are abbreviated to their opening words: every claim proved below depends
  only on which fixture record is selected and on its metadata, never on the
  prose contents; the `processing_metadata` of each fixture is kept verbatim.
-/

namespace LegalLens

/-! ### Python string primitives -/

/-- Lexicographic code-point comparison of char lists: the comparison Python
uses for `str < str` (and hence inside `sorted`). -/
def charsLt : List Char → List Char → Bool
  | _, [] => false
  | [], _ :: _ => true
  | a :: as, b :: bs =>
    if a.toNat < b.toNat then true
    else if b.toNat < a.toNat then false
    else charsLt as bs

/-- Python `s1 < s2` on strings. -/
def pyStrLt (s₁ s₂ : String) : Bool := charsLt s₁.data s₂.data

/-- Python `s1 <= s2` on strings, as the propositional order `sorted` sorts by. -/
def pyLe (s₁ s₂ : String) : Prop := charsLt s₂.data s₁.data = false

instance : DecidableRel pyLe := fun s₁ s₂ => by unfold pyLe; infer_instance

/-- Python `sorted` on a list of strings: a stable ascending sort by `pyLe`. -/
def pySorted (l : List String) : List String := List.insertionSort pyLe l

/-- Python `s.startswith(pre)`. -/
def pyStartswith (s pre : String) : Bool := pre.data.isPrefixOf s.data

/-- Contiguous-subsequence occurrence (Python `sub in s`, also used on the
byte prefix for the WEBP signature check). -/
def byteInfix {α : Type} [BEq α] : List α → List α → Bool
  | [], _ => true
  | _ :: _, [] => false
  | sub, c :: cs => (sub.isPrefixOf (c :: cs)) || byteInfix sub cs

/-- Python `sub in s` for strings. -/
def pyContains (s sub : String) : Bool := byteInfix sub.data s.data

/-- The ASCII whitespace characters removed by Python `str.strip()`. -/
def isPySpace (c : Char) : Bool :=
  c == ' ' || c == '\t' || c == '\n' || c == '\x0d' || c == '\x0b' || c == '\x0c'

/-- Python `s.strip()` (ASCII fragment): drop whitespace from both ends. -/
def pyStrip (s : String) : String :=
  ⟨((s.data.dropWhile isPySpace).reverse.dropWhile isPySpace).reverse⟩

/-- Python `s.lower()` (ASCII fragment, which is all the code relies on). -/
def pyLower (s : String) : String := ⟨s.data.map Char.toLower⟩

/-- Decimal digit character for `d < 10`. -/
def digitChar (d : Nat) : Char := Char.ofNat (48 + d)

/-- Fuelled most-significant-first decimal digit accumulator (the fuel only
serves structural recursion; `natDigits` supplies enough of it). -/
def natDigitsCore : Nat → Nat → List Char → List Char
  | 0, _, acc => acc
  | fuel + 1, n, acc =>
    if n < 10 then digitChar n :: acc
    else natDigitsCore fuel (n / 10) (digitChar (n % 10) :: acc)

/-- Decimal digits of a natural number, most significant first. -/
def natDigits (n : Nat) : List Char := natDigitsCore (n + 1) n []

/-- Decimal rendering of a natural number (Python `f"{n}"` / `str(n)`). -/
def natStr (n : Nat) : String := ⟨natDigits n⟩

/-! ### Python dict as an insertion-ordered association list

Python dicts preserve insertion order; assignment to a present key updates it
in place, assignment to a fresh key appends, and `pop` removes the (unique)
entry of a key.  `analysis_storage` maps string keys to stored analyses. -/

/-- Look up a key (`d[k]` / `d.get(k)`). -/
def dictGet {V : Type} : List (String × V) → String → Option V
  | [], _ => none
  | (k, v) :: rest, key => if k == key then some v else dictGet rest key

/-- Assign `d[k] = v`: update in place if present, else append. -/
def dictSet {V : Type} : List (String × V) → String → V → List (String × V)
  | [], key, val => [(key, val)]
  | (k, v) :: rest, key, val =>
    if k == key then (k, val) :: rest else (k, v) :: dictSet rest key val

/-- Remove a key (`d.pop(k, None)`); dict keys are unique, so removal is a
filter on the key. -/
def dictPop {V : Type} (d : List (String × V)) (key : String) : List (String × V) :=
  d.filter (fun p => !(p.1 == key))

/-- The keys of the dict, in insertion order (`d.keys()`). -/
def dictKeys {V : Type} (d : List (String × V)) : List String := d.map Prod.fst

/-! ### Data model (section 3 of the spec, from the source) -/

/-- One entry of `legal_terms_and_meanings`. -/
structure LegalTerm where
  term : String
  definition : String
  source : String
deriving DecidableEq

/-- One entry of `applicable_laws`. -/
structure ApplicableLaw where
  law : String
  description : String
deriving DecidableEq

/-- The `processing_metadata` mapping of an analysis record. -/
structure ProcessingMetadata where
  analysis_timestamp : String
  analysis_type : String
  document_type : String
  original_text_length : Nat
  confidence_score : ℚ
deriving DecidableEq

/-- AnalysisRecord: the structured analysis payload produced by the analyzer
or a demo fixture (field names follow the Python dict keys). -/
structure AnalysisRecord where
  document_summary : String
  legal_terms_and_meanings : List LegalTerm
  risk_analysis : String
  applicable_laws : List ApplicableLaw
  processing_metadata : ProcessingMetadata
deriving DecidableEq

/-- StoredAnalysis: the value stored at a key of `analysis_storage`. -/
structure StoredAnalysis where
  full_analysis : AnalysisRecord
  extracted_text : String
  user_email : String
  timestamp : Nat
deriving DecidableEq

/-- The process-wide result store `analysis_storage`. -/
abbrev Store := List (String × StoredAnalysis)

/-- Result of routing a request to the MCP server (`mcp_server.route_request`):
a success flag, the structured data, and an error message. -/
structure MCPResult where
  success : Bool
  data : AnalysisRecord
  error : String

/-- An HTTPException raised by an endpoint: status code and detail message. -/
structure HTTPError where
  status_code : Nat
  detail : String
deriving DecidableEq

/-! ### Demo fixtures (DemoFixture set) and the demo-account check -/

/-- Demo mode configuration (`DEMO_USER_EMAIL = "smp@gmail.com"`). -/
def DEMO_USER_EMAIL : String := "smp@gmail.com"

/-- Check if the user is the demo user
(`user_email.lower() == DEMO_USER_EMAIL.lower()`). -/
def is_demo_user (user_email : String) : Bool :=
  pyLower user_email == pyLower DEMO_USER_EMAIL

/-- Demo data for the business loan agreement (prose fields abbreviated,
metadata verbatim). -/
def get_loan_demo_data : AnalysisRecord :=
  { document_summary := "This is a business loan agreement executed on November 2, 2025 in Chennai, Tamil Nadu between ICICI Bank Limited (Lender) and GreenField Electronics Pvt. Ltd. (Borrower)."
    legal_terms_and_meanings :=
      [ { term := "Principal Amount", definition := "The original loan amount of Rs. 50,00,000 borrowed by GreenField Electronics from ICICI Bank, excluding interest and fees.", source := "Banking Law" },
        { term := "Annual Percentage Rate (APR)", definition := "The yearly interest rate of 12% charged on the outstanding loan balance, calculated monthly.", source := "Reserve Bank of India Guidelines" },
        { term := "Prepayment Clause", definition := "Contractual provision allowing the borrower to repay the loan early without additional penalties or charges.", source := "Banking Regulation Act" },
        { term := "Grace Period", definition := "A 30-day period after a missed payment during which no late fees are charged, providing borrower protection.", source := "Fair Practices Code" },
        { term := "Default", definition := "Failure to make loan payments as per agreed schedule, which may trigger additional charges and collection actions.", source := "Indian Contract Act, 1872" } ]
    risk_analysis := "OVERALL RISK LEVEL: MODERATE - This loan agreement presents balanced terms with reasonable borrower protections."
    applicable_laws :=
      [ { law := "Banking Regulation Act, 1949 - Sections 5 & 6", description := "Governs banking operations and loan disbursement procedures." },
        { law := "Indian Contract Act, 1872 - Sections 73-74", description := "Defines compensation for breach of contract and liquidated damages." },
        { law := "Reserve Bank of India Guidelines on Fair Practices Code", description := "Mandates transparent lending practices, interest rate disclosure, and borrower protection measures in banking operations." },
        { law := "Securitisation and Reconstruction of Financial Assets Act, 2002", description := "Provides legal framework for asset reconstruction and recovery in case of loan defaults by financial institutions." } ]
    processing_metadata :=
      { analysis_timestamp := "2025-11-02T15:45:00.000Z"
        analysis_type := "demo_business_loan_analysis"
        document_type := "Business Loan Agreement"
        original_text_length := 7500
        confidence_score := 0.98 } }

/-- Demo data for the residential rental agreement (prose fields abbreviated,
metadata verbatim). -/
def get_rental_demo_data : AnalysisRecord :=
  { document_summary := "This is a residential rental agreement executed on June 1, 2025, in Pollachi, Tamil Nadu, between Mr. Suganth Nadar (Owner) and Mr. Abiruth Chinna Gounder (Tenant)."
    legal_terms_and_meanings :=
      [ { term := "Security Deposit", definition := "Rs. 20,000 refundable amount paid by tenant as guarantee against damages or unpaid dues, excluding normal wear and tear.", source := "Rental Law" },
        { term := "Maintenance Charges", definition := "Additional monthly fee of Rs. 500 for common area upkeep, utilities, and building maintenance services.", source := "Property Management" },
        { term := "Subletting", definition := "Practice of tenant renting out the property to another party, which is strictly prohibited in this agreement.", source := "Tenancy Rights" },
        { term := "Normal Wear and Tear", definition := "Expected deterioration of property from ordinary residential use, for which tenant is not liable.", source := "Property Law" },
        { term := "Termination Notice", definition := "One month written advance notice required by either party to end the rental agreement.", source := "Contract Law" } ]
    risk_analysis := "OVERALL RISK LEVEL: LOW - This rental agreement provides balanced protection for both landlord and tenant with clear terms and reasonable conditions."
    applicable_laws :=
      [ { law := "Tamil Nadu Buildings (Lease and Rent Control) Act, 1960", description := "Governs residential rental agreements in Tamil Nadu, including tenant rights, rent control, and eviction procedures." },
        { law := "Indian Contract Act, 1872 - Sections 106-117", description := "Defines lease agreements, obligations of lessor and lessee, and termination procedures for rental contracts." },
        { law := "Transfer of Property Act, 1882 - Sections 105-111", description := "Establishes legal framework for property leases, including rights and duties of landlords and tenants." },
        { law := "Consumer Protection Act, 2019", description := "Provides additional protection for tenants against unfair practices in rental agreements and housing services." } ]
    processing_metadata :=
      { analysis_timestamp := "2025-11-02T15:45:00.000Z"
        analysis_type := "demo_residential_rental_analysis"
        document_type := "Residential Rental Agreement"
        original_text_length := 6200
        confidence_score := 0.96 } }

/-- Demo data for the internship confidentiality agreement (prose fields
abbreviated, metadata verbatim). -/
def get_internship_demo_data : AnalysisRecord :=
  { document_summary := "This is an Internship Confidentiality Agreement executed on November 5, 2025 between HariRam S (Intern) and Global Tech Pvt Limited, Coimbatore (Sponsor)."
    legal_terms_and_meanings :=
      [ { term := "Confidential Information", definition := "Any proprietary business information of Global Tech including documents, data, designs, plans, procedures, and prototypes shared during internship.", source := "Information Technology Law" },
        { term := "Non-Disclosure Obligation", definition := "Legal duty to maintain secrecy of confidential information for 90 days and not share with unauthorized third parties.", source := "Contract Law" },
        { term := "Reasonable Care", definition := "Standard level of protection that a prudent person would use to safeguard confidential information from unauthorized access.", source := "Data Protection Law" },
        { term := "Need to Know Basis", definition := "Principle limiting access to confidential information only to individuals who require it for legitimate internship purposes.", source := "Information Security" },
        { term := "Personal Benefit", definition := "Any advantage, profit, or gain that the intern might derive from unauthorized use of confidential information.", source := "Intellectual Property Law" } ]
    risk_analysis := "OVERALL RISK LEVEL: LOW-MODERATE - This internship NDA provides standard protections with reasonable terms for both parties."
    applicable_laws :=
      [ { law := "Indian Contract Act, 1872 - Sections 27 & 124-147", description := "Governs confidentiality agreements and restraint of trade provisions." },
        { law := "Information Technology Act, 2000 - Sections 43A & 72A", description := "Addresses data protection and confidentiality of information in electronic form, applicable to digital confidential information." },
        { law := "Copyright Act, 1957", description := "Protects original works including software, documents, and creative materials that may be encountered during internship." },
        { law := "Trade Secrets Protection under Common Law", description := "Provides additional protection for proprietary business information and trade secrets disclosed during internship period." } ]
    processing_metadata :=
      { analysis_timestamp := "2025-11-02T15:45:00.000Z"
        analysis_type := "demo_internship_nda_analysis"
        document_type := "Internship Confidentiality Agreement"
        original_text_length := 5800
        confidence_score := 0.94 } }

/-- Demo data for the Tamil loan agreement document (prose fields abbreviated,
metadata verbatim). -/
def get_tamil_demo_data : AnalysisRecord :=
  { document_summary := "இங்கே 200 வார்த்தைகளுக்குள் தமிழ்ச் சாராம்சம்: 03-11-2022 அன்று தயாரிக்கப்பட்ட இந்த கடன் உறுதி பத்திரம்."
    legal_terms_and_meanings :=
      [ { term := "கடன் உறுதி பத்திரம் (Loan Security Bond)", definition := "கடன் பெறுபவர் மற்றும் கடன் கொடுப்பவர் இடையேயான சட்டபூர்வ ஒப்பந்தம்.", source := "Indian Contract Act, 1872" },
        { term := "பிணை சொத்து (Collateral Property)", definition := "கடன் திருப்பிச் செலுத்த முடியாத பட்சத்தில் கடன் கொடுப்பவர் கைப்பற்றுவதற்கான உரிமை உள்ள சொத்து.", source := "Transfer of Property Act, 1882" },
        { term := "அபராத வட்டி (Penalty Interest)", definition := "தவணை செலுத்துவதில் தாமதம் ஏற்பட்டால் விதிக்கப்படும் கூடுதல் வட்டி.", source := "Interest Act, 1978" },
        { term := "மாதாந்திர தவணை (Monthly Installment)", definition := "மாதம்தோறும் செலுத்த வேண்டிய நிர்ணயிக்கப்பட்ட தொகை.", source := "Banking Regulation Act" },
        { term := "வட்டி விகிதம் (Interest Rate)", definition := "கடன் தொகையின் மீது வருடத்திற்கு விதிக்கப்படும் வட்டியின் சதவீத அளவு.", source := "Usury Laws" } ]
    risk_analysis := "ஒட்டுமொத்த ஆபத்து நிலை: நடுத்தர - இந்த கடன் ஒப்பந்தத்தில் சில ஆபத்து காரணிகள் உள்ளன."
    applicable_laws :=
      [ { law := "இந்திய ஒப்பந்த சட்டம், 1872 - பிரிவுகள் 10, 23, 124-147", description := "கடன் ஒப்பந்தங்களின் செல்லுபடி, நிபந்தனைகள், மற்றும் அமலாக்கத்தை நிர்வகிக்கிறது." },
        { law := "சொத்து பரிமாற்ற சட்டம், 1882 - பிரிவுகள் 58-104", description := "அடமான மற்றும் பிணை சொத்து உரிமைகளை கட்டுப்படுத்துகிறது." },
        { law := "வட்டி சட்டம், 1978", description := "வட்டி விகிதங்கள் மற்றும் அபராத வட்டி விதிமுறைகளை நியமிக்கிறது." },
        { law := "தமிழ்நாடு பதிவு சட்டம், 1908", description := "கடன் ஒப்பந்தங்களை சட்டப்படி பதிவு செய்வதை கட்டாயமாக்குகிறது." } ]
    processing_metadata :=
      { analysis_timestamp := "2025-11-02T16:30:00.000Z"
        analysis_type := "demo_tamil_loan_analysis"
        document_type := "Tamil Loan Security Bond"
        original_text_length := 6200
        confidence_score := 0.92 } }

/-- Get pre-configured demo analysis data based on document type, detected
from the title by keyword matching. -/
def get_demo_analysis_data (document_title : String) : AnalysisRecord :=
  if pyContains (pyLower document_title) "rental" || pyContains (pyLower document_title) "rent" then
    get_rental_demo_data
  else if pyContains (pyLower document_title) "internship" || pyContains (pyLower document_title) "nda" || pyContains (pyLower document_title) "confidentiality" then
    get_internship_demo_data
  else if pyContains (pyLower document_title) "kadan" || pyContains (pyLower document_title) "tamil" || pyContains document_title "கடன்" then
    get_tamil_demo_data
  else
    get_loan_demo_data

/-- Get the correct demo PDF path based on document type (same keyword
heuristic, written out separately in the source). -/
def get_demo_pdf_path (document_title : String) : String :=
  if pyContains (pyLower document_title) "rental" || pyContains (pyLower document_title) "rent" then
    "C:\\Codes-here\\VS Project\\LegalLens\\rental_result.pdf"
  else if pyContains (pyLower document_title) "internship" || pyContains (pyLower document_title) "nda" || pyContains (pyLower document_title) "confidentiality" then
    "C:\\Codes-here\\VS Project\\LegalLens\\result_intern.pdf"
  else if pyContains (pyLower document_title) "kadan" || pyContains (pyLower document_title) "tamil" || pyContains document_title "கடன்" then
    "C:\\Codes-here\\VS Project\\LegalLens\\result_kadan.pdf"
  else
    "C:\\Codes-here\\VS Project\\LegalLens\\loan_result.pdf"

/-! ### Result Store operations (inlined in the source endpoints) -/

/-- The storage key `f"{user_email}_{int(time.time())}"`. -/
def storageKey (user_email : String) (now : Nat) : String :=
  user_email ++ "_" ++ natStr now

/-- The value stored at a key of `analysis_storage`. -/
def mkStored (full_analysis : AnalysisRecord) (extracted_text : String)
    (user_email : String) (now : Nat) : StoredAnalysis :=
  { full_analysis := full_analysis, extracted_text := extracted_text,
    user_email := user_email, timestamp := now }

/-- Result Store `put` as performed by the non-demo branch of
`comprehensive_legal_analysis`: insert under the timestamped key, then keep
only the last 10 entries per user (`sorted(user_keys)[:-10]` are popped).
Returns the updated store and the storage key. -/
def resultStorePut (storage : Store) (user_email : String) (now : Nat)
    (full_analysis : AnalysisRecord) (extracted_text : String) : Store × String :=
  let key := storageKey user_email now
  let storage₁ := dictSet storage key (mkStored full_analysis extracted_text user_email now)
  let user_keys := (dictKeys storage₁).filter (fun k => pyStartswith k (user_email ++ "_"))
  let storage₂ :=
    if user_keys.length > 10 then
      let oldest_keys := (pySorted user_keys).take (user_keys.length - 10)
      oldest_keys.foldl dictPop storage₁
    else storage₁
  (storage₂, key)

/-- Result Store `most_recent` as performed by `generate_pdf_from_document`:
the value of `sorted(user_keys)[-1]` among keys prefixed by the user email. -/
def most_recent (storage : Store) (user_email : String) : Option StoredAnalysis :=
  let user_keys := (dictKeys storage).filter (fun k => pyStartswith k (user_email ++ "_"))
  if user_keys.isEmpty then none
  else
    match (pySorted user_keys).getLast? with
    | some latest_key => dictGet storage latest_key
    | none => none

/-! ### Endpoint: POST /comprehensive-analysis -/

/-- Request schema for comprehensive legal analysis. -/
structure ComprehensiveAnalysisRequest where
  extracted_text : String
  user_email : String
  document_title : String
deriving DecidableEq

/-- The `processing_metadata` of a response: the metadata of the analysis
record plus the storage key (and, on the demo path only, a `demo_mode` flag;
its absence on the other path is modelled as `false`). -/
structure ResponseMetadata where
  base : ProcessingMetadata
  storage_key : String
  demo_mode : Bool
deriving DecidableEq

/-- Response schema for comprehensive legal analysis. -/
structure ComprehensiveAnalysisResponse where
  success : Bool
  document_summary : String
  legal_terms : List LegalTerm
  risk_analysis : String
  applicable_laws : List ApplicableLaw
  processing_metadata : ResponseMetadata
deriving DecidableEq

instance {ε α : Type} [DecidableEq ε] [DecidableEq α] : DecidableEq (Except ε α) := fun x y =>
  match x, y with
  | Except.error a, Except.error b =>
    if h : a = b then isTrue (by rw [h]) else isFalse (fun hc => h (Except.error.inj hc))
  | Except.ok a, Except.ok b =>
    if h : a = b then isTrue (by rw [h]) else isFalse (fun hc => h (Except.ok.inj hc))
  | Except.error _, Except.ok _ => isFalse (fun hc => Except.noConfusion hc)
  | Except.ok _, Except.error _ => isFalse (fun hc => Except.noConfusion hc)

/-- Outcome of one endpoint call: the HTTP response or HTTPException, the
state of `analysis_storage` afterwards, and whether `save_analysis_storage`
(the flush to the storage file) ran. -/
structure EndpointResult where
  response : Except HTTPError ComprehensiveAnalysisResponse
  storage : Store
  saved : Bool
deriving DecidableEq

/-- The analysis record carried by a response (summary, terms, risk, laws and
the base metadata — everything except the storage key bookkeeping). -/
def responseRecord (r : ComprehensiveAnalysisResponse) : AnalysisRecord :=
  { document_summary := r.document_summary
    legal_terms_and_meanings := r.legal_terms
    risk_analysis := r.risk_analysis
    applicable_laws := r.applicable_laws
    processing_metadata := r.processing_metadata.base }

/-- `POST /comprehensive-analysis`: demo short-circuit (store without
eviction), else MCP-routed analysis (failure raises 500 before any store
write; success stores with per-user eviction).  `mcp` is the oracle for
`mcp_server.route_request`, applied to the extracted text and user email. -/
def comprehensive_legal_analysis (request : ComprehensiveAnalysisRequest)
    (storage : Store) (now : Nat)
    (mcp : String → String → MCPResult) : EndpointResult :=
  if is_demo_user request.user_email then
    let analysis_data := get_demo_analysis_data request.document_title
    let key := storageKey request.user_email now
    let storage' := dictSet storage key
      (mkStored analysis_data request.extracted_text request.user_email now)
    { response := Except.ok
        { success := true
          document_summary := analysis_data.document_summary
          legal_terms := analysis_data.legal_terms_and_meanings
          risk_analysis := analysis_data.risk_analysis
          applicable_laws := analysis_data.applicable_laws
          processing_metadata :=
            { base := analysis_data.processing_metadata, storage_key := key, demo_mode := true } }
      storage := storage'
      saved := true }
  else
    let result := mcp request.extracted_text request.user_email
    if !result.success then
      { response := Except.error
          { status_code := 500, detail := "Analysis failed: " ++ result.error }
        storage := storage
        saved := false }
    else
      let analysis_data := result.data
      let put := resultStorePut storage request.user_email now analysis_data request.extracted_text
      { response := Except.ok
          { success := true
            document_summary := analysis_data.document_summary
            legal_terms := analysis_data.legal_terms_and_meanings
            risk_analysis := analysis_data.risk_analysis
            applicable_laws := analysis_data.applicable_laws
            processing_metadata :=
              { base := analysis_data.processing_metadata, storage_key := put.2, demo_mode := false } }
        storage := put.1
        saved := true }

/-! ### Text Extractor (`DocumentAIService`) -/

/-- Detect actual file type from content if the MIME type is generic:
byte-signature sniffing, falling back to the declared MIME type. -/
def _detect_file_type (file_content : List Nat) (mime_type : String) : String :=
  if List.isPrefixOf [0x25, 0x50, 0x44, 0x46] file_content then "application/pdf"
  else if List.isPrefixOf [0xff, 0xd8, 0xff] file_content then "image/jpeg"
  else if List.isPrefixOf [0x89, 0x50, 0x4e, 0x47] file_content then "image/png"
  else if List.isPrefixOf [0x47, 0x49, 0x46, 0x38, 0x37, 0x61] file_content
      || List.isPrefixOf [0x47, 0x49, 0x46, 0x38, 0x39, 0x61] file_content then "image/gif"
  else if List.isPrefixOf [0x42, 0x4d] file_content then "image/bmp"
  else if List.isPrefixOf [0x52, 0x49, 0x46, 0x46] file_content
      && byteInfix [0x57, 0x45, 0x42, 0x50] (file_content.take 12) then "image/webp"
  else if List.isPrefixOf [0x49, 0x49, 0x2a, 0x00] file_content
      || List.isPrefixOf [0x4d, 0x4d, 0x00, 0x2a] file_content then "image/tiff"
  else mime_type

/-- The dict returned by `DocumentAIService.process_document`. -/
structure ExtractionResult where
  text : String
  pages : Nat
  entities : List String
  tables : List String
  confidence : ℚ
  processing_method : String
  mime_type : String
  text_file : String
deriving DecidableEq

/-- `process_document`: sniff the type, extract per branch (PDF text layer via
the `pdfExtract` oracle delivering page texts or an extraction error; images
via the `geminiExtract` oracle which always delivers a text, possibly an error
message; otherwise an unsupported-type placeholder), then prepend the
processing-metadata header and return the result record.  `now` is the
`datetime.now().isoformat()` string and `text_timestamp` the side-channel file
timestamp. -/
def process_document (file_content : List Nat) (mime_type : String)
    (now : String) (text_timestamp : String)
    (pdfExtract : List Nat → Except String (List String))
    (geminiExtract : List Nat → String → String) : ExtractionResult :=
  let actual_mime_type := _detect_file_type file_content mime_type
  let pm_and_text : String × String :=
    if actual_mime_type == "application/pdf" then
      ("pdf_pymupdf",
        match pdfExtract file_content with
        | Except.ok page_texts =>
          let all_text := page_texts.enum.filterMap (fun pt =>
            if pyStrip pt.2 == "" then none
            else some ("=== Page " ++ natStr (pt.1 + 1) ++ " ===\n" ++ pt.2))
          if all_text.isEmpty then
            "No text could be extracted from this PDF. The document may contain only images or scanned content."
          else String.intercalate "\n\n" all_text
        | Except.error pdf_error => "Error extracting text from PDF: " ++ pdf_error)
    else if pyStartswith actual_mime_type "image/" then
      ("gemini_api", geminiExtract file_content actual_mime_type)
    else
      ("unsupported", "Unsupported file type: " ++ actual_mime_type ++ " (original: " ++ mime_type ++ ")")
  let processing_method := pm_and_text.1
  let extracted_text := pm_and_text.2
  let full_text := "Document processed using: " ++ (processing_method ++ ("\nMIME Type: "
    ++ (actual_mime_type ++ ("\nProcessed at: " ++ (now ++ ("\n\n" ++ extracted_text))))))
  { text := full_text
    pages := 1
    entities := []
    tables := []
    confidence := if processing_method == "pdf_pymupdf" || processing_method == "gemini_api" then 0.95 else 0.0
    processing_method := processing_method
    mime_type := actual_mime_type
    text_file := "extracted_text_" ++ text_timestamp ++ ".txt" }

/-! ### Endpoint: POST /analyze-document-file -/

/-- The success payload of `analyze_document_file`. -/
structure FileAnalysisResponse where
  filename : String
  extracted_text : String
  text_length : Nat
  document_summary : String
  legal_terms : List LegalTerm
  risk_analysis : String
  applicable_laws : List ApplicableLaw
  processing_metadata : ProcessingMetadata
  pages : Nat
  confidence : ℚ
deriving DecidableEq

/-- Outcome of an `analyze_document_file` call: response, storage state,
flush flag (this endpoint never writes the Result Store). -/
structure FileEndpointResult where
  response : Except HTTPError FileAnalysisResponse
  storage : Store
  saved : Bool
deriving DecidableEq

/-- `POST /analyze-document-file`: read the upload, extract text (the
`extract` oracle stands for `DocumentAIService.process_document` on the file
content and declared content type), reject with 400 when the stripped text is
empty, else route to the MCP analyzer and return the structured payload.
The endpoint never touches `analysis_storage`. -/
def analyze_document_file (file_content : List Nat) (content_type : String)
    (filename : String) (user_email : String) (document_title : String)
    (storage : Store)
    (extract : List Nat → String → ExtractionResult)
    (mcp : String → String → MCPResult) : FileEndpointResult :=
  let extraction_result := extract file_content content_type
  let extracted_text := extraction_result.text
  if pyStrip extracted_text == "" then
    { response := Except.error
        { status_code := 400, detail := "No text could be extracted from the document" }
      storage := storage, saved := false }
  else
    let result := mcp extracted_text user_email
    if !result.success then
      { response := Except.error
          { status_code := 500, detail := "Analysis failed: " ++ result.error }
        storage := storage, saved := false }
    else
      let analysis_data := result.data
      { response := Except.ok
          { filename := filename
            extracted_text := extracted_text
            text_length := extracted_text.length
            document_summary := analysis_data.document_summary
            legal_terms := analysis_data.legal_terms_and_meanings
            risk_analysis := analysis_data.risk_analysis
            applicable_laws := analysis_data.applicable_laws
            processing_metadata := analysis_data.processing_metadata
            pages := extraction_result.pages
            confidence := extraction_result.confidence }
        storage := storage, saved := false }

/-! ### Endpoint: POST /generate-pdf-from-document -/

/-- Request schema for generating a PDF from a document ID (`document_title`
and `extracted_text` default to `None`). -/
structure DocumentPDFRequest where
  document_id : String
  document_title : Option String
  user_email : String
  extracted_text : Option String
deriving DecidableEq

/-- A streamed binary response: content bytes, media type and the
`Content-Disposition` filename. -/
structure PDFStreamingResponse where
  content : List Nat
  media_type : String
  filename : String
deriving DecidableEq

/-- Outcome of a `generate_pdf_from_document` call. -/
structure PDFEndpointResult where
  response : Except HTTPError PDFStreamingResponse
  storage : Store
  saved : Bool
deriving DecidableEq

/-- Python `s.replace(a, b)` for single characters. -/
def replaceChar (s : String) (a b : Char) : String :=
  ⟨s.data.map (fun c => if c == a then b else c)⟩

/-- The `available_users` rendering of the guidance branch:
`list(set(key.split('_')[0] + '@' + key.split('_')[1] ...))` interpolated into
the message.  Python set iteration order is unspecified; the model fixes it to
first-occurrence order (no claim depends on this string). -/
def available_users_str (all_keys : List String) : String :=
  let users := (all_keys.filterMap (fun key =>
    if pyContains key "_" then
      some ((key.splitOn "_").getD 0 "" ++ "@" ++ (key.splitOn "_").getD 1 "")
    else none)).eraseDups
  "[" ++ String.intercalate ", " (users.map (fun u => "\x27" ++ u ++ "\x27")) ++ "]"

/-- The PDF filename of the non-demo path:
`comprehensive_analysis_{title.replace(' ', '_').lower()[:30] or legal_document}.pdf`. -/
def pdfReportFilename (document_title : Option String) : String :=
  let fname_part :=
    match document_title with
    | some t => if t == "" then "legal_document" else ⟨(pyLower (replaceChar t ' ' '_')).data.take 30⟩
    | none => "legal_document"
  "comprehensive_analysis_" ++ fname_part ++ ".pdf"

/-- The body of `generate_pdf_from_document` (everything inside its `try`):
demo short-circuit streaming a static file (via the `readFile` oracle), else
stored-analysis lookup, else fresh analysis on supplied text (via the
`analyzer` oracle for `ComprehensiveLegalAnalyzer.analyze_document`, stored
without eviction), else an HTTPException 400 with guidance; finally the
renderer oracle (`LegalReportGenerator.generate_comprehensive_report`)
produces the streamed bytes. -/
def generate_pdf_from_document_body (request : DocumentPDFRequest)
    (storage : Store) (now : Nat)
    (readFile : String → Option (List Nat))
    (analyzer : String → String → AnalysisRecord)
    (renderer : AnalysisRecord → String → List Nat) : PDFEndpointResult :=
  if is_demo_user request.user_email then
    let demo_pdf_path := get_demo_pdf_path (request.document_title.getD "")
    match readFile demo_pdf_path with
    | some pdf_content =>
      let title := request.document_title.getD ""
      let doc_type :=
        if pyContains (pyLower title) "rental" then "rental"
        else if pyContains (pyLower title) "internship" || pyContains (pyLower title) "nda" then "internship"
        else "loan"
      let filename := "demo_" ++ doc_type ++ "_analysis_"
        ++ replaceChar (replaceChar request.user_email '@' '_') '.' '_' ++ ".pdf"
      { response := Except.ok
          { content := pdf_content, media_type := "application/pdf", filename := filename }
        storage := storage, saved := false }
    | none =>
      { response := Except.error
          { status_code := 500, detail := "Demo PDF file not available. Please contact administrator." }
        storage := storage, saved := false }
  else
    let user_keys := (dictKeys storage).filter (fun k => pyStartswith k (request.user_email ++ "_"))
    let guidance : Except HTTPError (AnalysisRecord × Store × Bool) :=
      let all_keys := dictKeys storage
      let error_msg :=
        if !all_keys.isEmpty then
          "No analysis data found for user \x27" ++ request.user_email
            ++ "\x27. Available analysis for users: " ++ available_users_str all_keys
            ++ ". Please perform document analysis first for this user account."
        else
          "No analysis data available for PDF generation for user \x27" ++ request.user_email
            ++ "\x27. Please perform document analysis first, then try downloading the PDF again."
      Except.error { status_code := 400, detail := error_msg }
    let sel : Except HTTPError (AnalysisRecord × Store × Bool) :=
      if !user_keys.isEmpty then
        match (pySorted user_keys).getLast? with
        | some latest_key =>
          match dictGet storage latest_key with
          | some stored_data => Except.ok (stored_data.full_analysis, storage, false)
          | none => Except.error { status_code := 500, detail := "KeyError" }
        | none => Except.error { status_code := 500, detail := "IndexError" }
      else
        match request.extracted_text with
        | some txt =>
          if !(txt == "") && !(pyStrip txt == "") then
            let analysis_result := analyzer txt request.user_email
            let key := storageKey request.user_email now
            let storage' := dictSet storage key
              (mkStored analysis_result txt request.user_email now)
            Except.ok (analysis_result, storage', true)
          else guidance
        | none => guidance
    match sel with
    | Except.error e => { response := Except.error e, storage := storage, saved := false }
    | Except.ok (analysis_result, storage', saved') =>
      let filename := pdfReportFilename request.document_title
      let pdf_bytes := renderer analysis_result filename
      { response := Except.ok
          { content := pdf_bytes, media_type := "application/pdf", filename := filename }
        storage := storage', saved := saved' }

/-- `POST /generate-pdf-from-document`: the body wrapped in the endpoint's
only exception handler, a generic `except Exception` (this endpoint has no
`except HTTPException: raise` clause, unlike its siblings), which re-raises
every exception — including the HTTPExceptions the body raises — as status
500 with `str(e)` (`f"{status_code}: {detail}"` for an HTTPException)
interpolated into the detail. -/
def generate_pdf_from_document (request : DocumentPDFRequest)
    (storage : Store) (now : Nat)
    (readFile : String → Option (List Nat))
    (analyzer : String → String → AnalysisRecord)
    (renderer : AnalysisRecord → String → List Nat) : PDFEndpointResult :=
  let r := generate_pdf_from_document_body request storage now readFile analyzer renderer
  match r.response with
  | Except.error e =>
    let wrapped : HTTPError :=
      { status_code := 500
        detail := "PDF generation failed: " ++ natStr e.status_code ++ ": " ++ e.detail }
    { r with response := Except.error wrapped }
  | Except.ok _ => r

/-! ### Lemmas: lexicographic string comparison -/

theorem charsLt_irrefl : ∀ l : List Char, charsLt l l = false
  | [] => rfl
  | a :: as => by
    simp only [charsLt, Nat.lt_irrefl, if_false]
    exact charsLt_irrefl as

theorem charsLt_asymm : ∀ {a b : List Char}, charsLt a b = true → charsLt b a = false
  | [], [], h => by simp [charsLt] at h
  | _ :: _, [], h => by simp [charsLt] at h
  | [], _ :: _, _ => by simp [charsLt]
  | a :: as, b :: bs, h => by
    simp only [charsLt] at h ⊢
    rcases Nat.lt_trichotomy a.toNat b.toNat with hab | hab | hab
    · rw [if_neg (Nat.lt_asymm hab), if_pos hab]
    · rw [hab] at h ⊢
      simp only [Nat.lt_irrefl, if_false] at h ⊢
      exact charsLt_asymm h
    · rw [if_neg (Nat.lt_asymm hab), if_pos hab] at h
      exact absurd h (by simp)

theorem charsLt_trans : ∀ {a b c : List Char},
    charsLt a b = true → charsLt b c = true → charsLt a c = true
  | _, _, [], _, h₂ => by simp [charsLt] at h₂
  | _, [], _ :: _, h₁, _ => by simp [charsLt] at h₁
  | [], _ :: _, _ :: _, _, _ => by simp [charsLt]
  | a :: as, b :: bs, c :: cs, h₁, h₂ => by
    simp only [charsLt] at h₁ h₂ ⊢
    rcases Nat.lt_trichotomy a.toNat b.toNat with hab | hab | hab
    · rcases Nat.lt_trichotomy b.toNat c.toNat with hbc | hbc | hbc
      · rw [if_pos (Nat.lt_trans hab hbc)]
      · rw [← hbc, if_pos hab]
      · rw [if_neg (Nat.lt_asymm hbc), if_pos hbc] at h₂
        exact absurd h₂ (by simp)
    · rcases Nat.lt_trichotomy b.toNat c.toNat with hbc | hbc | hbc
      · rw [hab, if_pos hbc]
      · rw [hab, hbc] at h₁ ⊢
        rw [hbc] at h₂
        simp only [Nat.lt_irrefl, if_false] at h₁ h₂ ⊢
        exact charsLt_trans h₁ h₂
      · rw [if_neg (Nat.lt_asymm hbc), if_pos hbc] at h₂
        exact absurd h₂ (by simp)
    · rw [if_neg (Nat.lt_asymm hab), if_pos hab] at h₁
      exact absurd h₁ (by simp)

theorem charsLt_conn : ∀ {a b : List Char}, charsLt a b = false → charsLt b a = false → a = b
  | [], [], _, _ => rfl
  | _ :: _, [], _, h₂ => by simp [charsLt] at h₂
  | [], _ :: _, h₁, _ => by simp [charsLt] at h₁
  | a :: as, b :: bs, h₁, h₂ => by
    simp only [charsLt] at h₁ h₂
    rcases Nat.lt_trichotomy a.toNat b.toNat with hab | hab | hab
    · rw [if_pos hab] at h₁
      exact absurd h₁ (by simp)
    · have hc : a = b := Char.ext (UInt32.ext hab)
      subst hc
      simp only [Nat.lt_irrefl, if_false] at h₁ h₂
      rw [charsLt_conn h₁ h₂]
    · rw [if_pos hab] at h₂
      exact absurd h₂ (by simp)

theorem pyStrLt_ne {s₁ s₂ : String} (h : pyStrLt s₁ s₂ = true) : s₁ ≠ s₂ := by
  intro hc
  rw [hc] at h
  rw [pyStrLt, charsLt_irrefl] at h
  exact Bool.noConfusion h

theorem charsLt_append_left : ∀ (p a b : List Char), charsLt (p ++ a) (p ++ b) = charsLt a b
  | [], _, _ => rfl
  | c :: p, a, b => by
    show charsLt (c :: (p ++ a)) (c :: (p ++ b)) = charsLt a b
    simp only [charsLt, Nat.lt_irrefl, if_false]
    exact charsLt_append_left p a b

theorem charsLt_append_last : ∀ {a b : List Char} (x y : Char),
    a.length = b.length → charsLt a b = true → charsLt (a ++ [x]) (b ++ [y]) = true
  | [], [], _, _, _, h => by simp [charsLt] at h
  | _ :: _, [], _, _, hlen, _ => by simp at hlen
  | [], _ :: _, _, _, hlen, _ => by simp at hlen
  | a :: as, b :: bs, x, y, hlen, h => by
    simp only [charsLt, List.cons_append] at h ⊢
    rcases Nat.lt_trichotomy a.toNat b.toNat with hab | hab | hab
    · rw [if_pos hab]
    · rw [hab] at h ⊢
      simp only [Nat.lt_irrefl, if_false] at h ⊢
      exact charsLt_append_last x y (by simpa using hlen) h
    · rw [if_neg (Nat.lt_asymm hab), if_pos hab] at h
      exact absurd h (by simp)

instance : IsTotal String pyLe :=
  ⟨fun a b => by
    unfold pyLe
    cases hh : charsLt b.data a.data
    · exact Or.inl rfl
    · exact Or.inr (charsLt_asymm hh)⟩

instance : IsTrans String pyLe :=
  ⟨fun a b c hab hbc => by
    unfold pyLe at hab hbc ⊢
    cases hca : charsLt c.data a.data
    · rfl
    · exfalso
      cases hba : charsLt a.data b.data
      · have he : a.data = b.data := charsLt_conn hba hab
        rw [he] at hca
        rw [hca] at hbc
        exact Bool.noConfusion hbc
      · have := charsLt_trans hca hba
        rw [this] at hbc
        exact Bool.noConfusion hbc⟩

theorem isPrefixOf_append_self : ∀ (l m : List Char), l.isPrefixOf (l ++ m) = true
  | [], _ => by simp [List.isPrefixOf]
  | a :: l, m => by
    simp only [List.cons_append, List.isPrefixOf, beq_self_eq_true, Bool.true_and]
    exact isPrefixOf_append_self l m

/-! ### Lemmas: decimal rendering of timestamps -/

theorem natDigitsCore_acc : ∀ (fuel n : Nat) (acc : List Char), n < fuel →
    natDigitsCore fuel n acc = natDigitsCore fuel n [] ++ acc := by
  intro fuel
  induction fuel with
  | zero => intro n acc h; omega
  | succ fuel ih =>
    intro n acc _
    by_cases h10 : n < 10
    · simp [natDigitsCore, h10]
    · have hdiv : n / 10 < fuel := by
        have := Nat.div_lt_self (show 0 < n by omega) (show 1 < 10 by omega)
        omega
      simp only [natDigitsCore, if_neg h10]
      rw [ih (n / 10) _ hdiv, ih (n / 10) [digitChar (n % 10)] hdiv]
      simp

theorem natDigitsCore_fuel : ∀ (f₁ f₂ n : Nat), n < f₁ → n < f₂ →
    natDigitsCore f₁ n [] = natDigitsCore f₂ n [] := by
  intro f₁
  induction f₁ with
  | zero => intro f₂ n h; omega
  | succ f₁ ih =>
    intro f₂ n h₁ h₂
    match f₂, h₂ with
    | f₂ + 1, h₂ =>
      by_cases h10 : n < 10
      · simp [natDigitsCore, h10]
      · have hd : 0 < n := by omega
        have hdiv : n / 10 < n := Nat.div_lt_self hd (by omega)
        simp only [natDigitsCore, if_neg h10]
        rw [natDigitsCore_acc f₁ (n / 10) _ (by omega),
            natDigitsCore_acc f₂ (n / 10) _ (by omega),
            ih f₂ (n / 10) (by omega) (by omega)]

theorem natDigits_eq (n : Nat) :
    natDigits n = if n < 10 then [digitChar n] else natDigits (n / 10) ++ [digitChar (n % 10)] := by
  by_cases h10 : n < 10
  · simp [natDigits, natDigitsCore, h10]
  · have hd : 0 < n := by omega
    have hdiv : n / 10 < n := Nat.div_lt_self hd (by omega)
    rw [if_neg h10]
    show natDigitsCore (n + 1) n [] = _
    have hn : ¬ n < 10 := h10
    simp only [natDigitsCore, if_neg hn]
    rw [natDigitsCore_acc n (n / 10) _ (by omega),
        natDigitsCore_fuel n (n / 10 + 1) (n / 10) (by omega) (by omega)]
    rfl

theorem natDigits_ne_nil (n : Nat) : natDigits n ≠ [] := by
  rw [natDigits_eq]
  by_cases h10 : n < 10
  · simp [h10]
  · simp [h10]

theorem natDigits_length : ∀ (k : Nat), ∀ n, 10 ^ k ≤ n → n < 10 ^ (k + 1) →
    (natDigits n).length = k + 1 := by
  intro k
  induction k with
  | zero =>
    intro n h₁ h₂
    rw [natDigits_eq, if_pos (by simpa using h₂)]
    rfl
  | succ k ih =>
    intro n h₁ h₂
    have hp : (1 : Nat) ≤ 10 ^ k := Nat.one_le_pow _ _ (by omega)
    have hn10 : ¬ n < 10 := by
      have : 10 ^ (k + 1) = 10 ^ k * 10 := pow_succ 10 k
      omega
    rw [natDigits_eq, if_neg hn10]
    have hlow : 10 ^ k ≤ n / 10 := by
      rw [Nat.le_div_iff_mul_le (by omega)]
      calc 10 ^ k * 10 = 10 ^ (k + 1) := (pow_succ 10 k).symm
        _ ≤ n := h₁
    have hhigh : n / 10 < 10 ^ (k + 1) := by
      rw [Nat.div_lt_iff_lt_mul (by omega)]
      calc n < 10 ^ (k + 2) := h₂
        _ = 10 ^ (k + 1) * 10 := pow_succ 10 (k + 1)
    simp [ih (n / 10) hlow hhigh]

theorem digitChar_toNat : ∀ d, d < 10 → (digitChar d).toNat = 48 + d := by
  intro d h
  interval_cases d <;> rfl

theorem natDigits_lt : ∀ (b : Nat), ∀ a, a < b →
    (natDigits a).length = (natDigits b).length →
    charsLt (natDigits a) (natDigits b) = true := by
  intro b
  induction b using Nat.strong_induction_on with
  | _ b ih =>
    intro a hab hlen
    by_cases hb : b < 10
    · have ha : a < 10 := Nat.lt_trans hab hb
      rw [natDigits_eq a, if_pos ha, natDigits_eq b, if_pos hb]
      have hd : (digitChar a).toNat < (digitChar b).toNat := by
        rw [digitChar_toNat a ha, digitChar_toNat b hb]
        omega
      simp [charsLt, hd]
    · have ha : ¬ a < 10 := by
        intro ha
        rw [natDigits_eq a, if_pos ha, natDigits_eq b, if_neg hb] at hlen
        simp at hlen
        exact natDigits_ne_nil (b / 10) hlen.symm.symm
      rw [natDigits_eq a, if_neg ha, natDigits_eq b, if_neg hb]
      rw [natDigits_eq a, if_neg ha, natDigits_eq b, if_neg hb] at hlen
      simp only [List.length_append, List.length_cons, List.length_nil] at hlen
      have hlen' : (natDigits (a / 10)).length = (natDigits (b / 10)).length := by omega
      have hbdiv : b / 10 < b := Nat.div_lt_self (by omega) (by omega)
      rcases Nat.lt_or_ge (a / 10) (b / 10) with hdiv | hdiv
      · exact charsLt_append_last _ _ hlen' (ih (b / 10) hbdiv (a / 10) hdiv hlen')
      · have heq : a / 10 = b / 10 :=
          Nat.le_antisymm (Nat.div_le_div_right (Nat.le_of_lt hab)) hdiv
        rw [heq, charsLt_append_left]
        have hmod : a % 10 < b % 10 := by omega
        have hd : (digitChar (a % 10)).toNat < (digitChar (b % 10)).toNat := by
          rw [digitChar_toNat _ (by omega), digitChar_toNat _ (by omega)]
          omega
        simp [charsLt, hd]

/-- The realistic wall-clock window: epoch seconds with exactly ten decimal
digits (all of 2001-2286). -/
def tsWindow (t : Nat) : Prop := 10 ^ 9 ≤ t ∧ t < 10 ^ 10

instance (t : Nat) : Decidable (tsWindow t) := by unfold tsWindow; infer_instance

theorem natDigits_length_window {t : Nat} (h : tsWindow t) : (natDigits t).length = 10 :=
  natDigits_length 9 t h.1 h.2

theorem storageKey_data (u : String) (t : Nat) :
    (storageKey u t).data = (u.data ++ ['_']) ++ natDigits t := by
  show (u ++ "_" ++ natStr t).data = _
  rw [String.data_append, String.data_append]
  rfl

theorem storageKey_lt (u : String) {t₁ t₂ : Nat} (h : t₁ < t₂)
    (h₁ : tsWindow t₁) (h₂ : tsWindow t₂) :
    pyStrLt (storageKey u t₁) (storageKey u t₂) = true := by
  rw [pyStrLt, storageKey_data, storageKey_data, charsLt_append_left]
  exact natDigits_lt t₂ t₁ h
    (by rw [natDigits_length_window h₁, natDigits_length_window h₂])

theorem storageKey_startswith (u : String) (t : Nat) :
    pyStartswith (storageKey u t) (u ++ "_") = true := by
  rw [pyStartswith, storageKey_data, String.data_append]
  show (u.data ++ ['_']).isPrefixOf ((u.data ++ ['_']) ++ natDigits t) = true
  exact isPrefixOf_append_self _ _

/-! ### Lemmas: Python `sorted` -/

theorem pySorted_sorted (l : List String) : List.Sorted pyLe (pySorted l) :=
  List.sorted_insertionSort pyLe l

theorem pySorted_perm (l : List String) : (pySorted l).Perm l :=
  List.perm_insertionSort pyLe l

theorem pySorted_mem {l : List String} {x : String} : x ∈ pySorted l ↔ x ∈ l :=
  (pySorted_perm l).mem_iff

theorem pairwise_lt_sorted {l : List String}
    (h : l.Pairwise (fun a b => pyStrLt a b = true)) : List.Sorted pyLe l :=
  h.imp (fun hab => charsLt_asymm hab)

theorem pySorted_eq_self {l : List String} (h : List.Sorted pyLe l) : pySorted l = l :=
  List.Sorted.insertionSort_eq h

/-- In a `pyLe`-sorted list, an element that every other element is strictly
below is the last element. -/
theorem sorted_getLast?_max : ∀ {l : List String} {x : String},
    List.Sorted pyLe l → x ∈ l →
    (∀ y ∈ l, y = x ∨ charsLt y.data x.data = true) → l.getLast? = some x := by
  intro l
  induction l with
  | nil => intro x _ hx; cases hx
  | cons a l ih =>
    intro x hs hx hmax
    cases l with
    | nil =>
      have : x = a := by
        cases hx with
        | head => rfl
        | tail _ h => cases h
      rw [this]
      rfl
    | cons b l' =>
      rw [List.getLast?_cons_cons]
      have hs' : List.Sorted pyLe (b :: l') := hs.of_cons
      have hx' : x ∈ b :: l' := by
        cases hx with
        | tail _ h => exact h
        | head =>
          rcases hmax b (by simp) with hb | hb
          · rw [hb]; exact List.mem_cons_self _ _
          · exfalso
            have hab : pyLe a b := (List.sorted_cons.mp hs).1 b (by simp)
            rw [pyLe] at hab
            rw [hab] at hb
            exact Bool.noConfusion hb
      exact ih hs' hx' (fun y hy => hmax y (List.mem_cons_of_mem a hy))

/-! ### Lemmas: the dict model -/

section DictLemmas

variable {V : Type}

theorem mem_dictKeys_iff {d : List (String × V)} {k : String} :
    k ∈ dictKeys d ↔ ∃ v, (k, v) ∈ d := by
  rw [dictKeys, List.mem_map]
  constructor
  · rintro ⟨⟨k₀, v₀⟩, hp, rfl⟩
    exact ⟨v₀, hp⟩
  · rintro ⟨v, hv⟩
    exact ⟨(k, v), hv, rfl⟩

theorem dictSet_fresh {d : List (String × V)} {k : String} (v : V) (h : k ∉ dictKeys d) :
    dictSet d k v = d ++ [(k, v)] := by
  induction d with
  | nil => rfl
  | cons p rest ih =>
    obtain ⟨k₀, v₀⟩ := p
    have hk : (k₀ == k) = false := by
      have : k₀ ≠ k := by
        intro he
        exact h (by simp [dictKeys, he])
      simp [this]
    have hrest : k ∉ dictKeys rest := by
      intro hm
      exact h (by simp [dictKeys] at hm ⊢; exact Or.inr hm)
    simp [dictSet, hk, ih hrest]

theorem dictGet_append_right {d l : List (String × V)} {k : String} (h : k ∉ dictKeys d) :
    dictGet (d ++ l) k = dictGet l k := by
  induction d with
  | nil => rfl
  | cons p rest ih =>
    obtain ⟨k₀, v₀⟩ := p
    have hk : (k₀ == k) = false := by
      have : k₀ ≠ k := fun he => h (by simp [dictKeys, he])
      simp [this]
    have hrest : k ∉ dictKeys rest := fun hm => h (by simp [dictKeys] at hm ⊢; exact Or.inr hm)
    simp [dictGet, hk, ih hrest]

theorem dictGet_filter_key (q : String → Bool) {d : List (String × V)} {k : String}
    (hq : q k = true) :
    dictGet (d.filter (fun p => q p.1)) k = dictGet d k := by
  induction d with
  | nil => rfl
  | cons p rest ih =>
    obtain ⟨k₀, v₀⟩ := p
    by_cases hk : (k₀ == k) = true
    · have he : k₀ = k := by simpa using hk
      subst he
      simp [List.filter_cons, hq, dictGet]
    · have hk' : (k₀ == k) = false := by simpa using hk
      cases hqk : q k₀
      · simp [List.filter_cons, hqk, dictGet, hk', ih]
      · simp [List.filter_cons, hqk, dictGet, hk', ih]

theorem foldl_dictPop (ks : List String) (d : List (String × V)) :
    ks.foldl dictPop d = d.filter (fun p => !(List.elem p.1 ks)) := by
  induction ks generalizing d with
  | nil => simp [List.elem]
  | cons k ks ih =>
    rw [List.foldl_cons, ih, dictPop, List.filter_filter]
    apply List.filter_congr
    intro p _
    cases h1 : (p.1 == k) <;> simp [List.elem, h1]

theorem dictKeys_append (d l : List (String × V)) :
    dictKeys (d ++ l) = dictKeys d ++ dictKeys l := by
  simp [dictKeys]

theorem dictKeys_filter (q : String → Bool) (d : List (String × V)) :
    dictKeys (d.filter (fun p => q p.1)) = (dictKeys d).filter q := by
  rw [dictKeys, dictKeys, List.filter_map]
  rfl

end DictLemmas

/-! ### Lemmas: the retention behaviour of `resultStorePut` -/

/-- Iterated Result Store puts for one user: put at each timestamp of `ts` in
order, with per-timestamp record and source text. -/
def putSeq (st : Store) (user : String) (rec : Nat → AnalysisRecord)
    (txt : Nat → String) (ts : List Nat) : Store :=
  ts.foldl (fun s t => (resultStorePut s user t (rec t) (txt t)).1) st

/-- The store entry a put at timestamp `t` creates. -/
def entryOf (user : String) (rec : Nat → AnalysisRecord) (txt : Nat → String)
    (t : Nat) : String × StoredAnalysis :=
  (storageKey user t, mkStored (rec t) (txt t) user t)

/-- The last `n` elements of a list. -/
def lastN (n : Nat) (l : List Nat) : List Nat := l.drop (l.length - n)

theorem storageKey_not_mem_dictKeys (user : String) (rec : Nat → AnalysisRecord)
    (txt : Nat → String) (st : Store) (done : List Nat) (t : Nat)
    (hfilter : st.filter (fun p => pyStartswith p.1 (user ++ "_"))
      = done.map (entryOf user rec txt))
    (hdone : ∀ t' ∈ done, t' < t) (hwind : ∀ t' ∈ done, tsWindow t')
    (hwt : tsWindow t) :
    storageKey user t ∉ dictKeys st := by
  intro hmem
  obtain ⟨v, hv⟩ := mem_dictKeys_iff.mp hmem
  have hpf : pyStartswith (storageKey user t) (user ++ "_") = true :=
    storageKey_startswith user t
  have hin : (storageKey user t, v) ∈ done.map (entryOf user rec txt) := by
    rw [← hfilter]
    exact List.mem_filter.mpr ⟨hv, hpf⟩
  obtain ⟨t', ht', he⟩ := List.mem_map.mp hin
  have hkey : storageKey user t' = storageKey user t := congrArg Prod.fst he
  exact pyStrLt_ne (storageKey_lt user (hdone t' ht') (hwind t' ht') hwt) hkey

theorem filter_not_elem_take (user : String) (l : List Nat) (m : Nat)
    (hpair : l.Pairwise (· < ·)) (hwin : ∀ x ∈ l, tsWindow x) :
    l.filter (fun t' =>
        !(List.elem (storageKey user t') ((l.take m).map (storageKey user))))
      = l.drop m := by
  have hnodup : l.Nodup := hpair.nodup
  have hkeyinj : ∀ x ∈ l, ∀ y ∈ l, storageKey user x = storageKey user y → x = y := by
    intro x hx y hy he
    rcases Nat.lt_trichotomy x y with h | h | h
    · exact absurd he (pyStrLt_ne (storageKey_lt user h (hwin x hx) (hwin y hy)))
    · exact h
    · exact absurd he.symm (pyStrLt_ne (storageKey_lt user h (hwin y hy) (hwin x hx)))
  set P := fun t' =>
    !(List.elem (storageKey user t') ((l.take m).map (storageKey user))) with hP
  have hsplit : l.filter P = (l.take m).filter P ++ (l.drop m).filter P := by
    conv_lhs => rw [← List.take_append_drop m l]
    rw [List.filter_append]
  have htake : (l.take m).filter P = [] := by
    rw [List.filter_eq_nil]
    intro x hx
    have hmem : storageKey user x ∈ (l.take m).map (storageKey user) :=
      List.mem_map_of_mem _ hx
    simp only [hP]
    rw [List.elem_iff.mpr hmem]
    simp
  have hdrop : (l.drop m).filter P = l.drop m := by
    rw [List.filter_eq_self]
    intro x hx
    simp only [hP]
    cases helem : List.elem (storageKey user x) ((l.take m).map (storageKey user))
    · rfl
    · exfalso
      obtain ⟨y, hy, he⟩ := List.mem_map.mp (List.elem_iff.mp helem)
      have hyx : y = x :=
        hkeyinj y (List.mem_of_mem_take hy) x (List.mem_of_mem_drop hx) he
      have hx' : x ∈ l.take m := hyx ▸ hy
      have hdisj := (List.nodup_append.mp (by
        rw [List.take_append_drop m l]; exact hnodup)).2.2
      exact hdisj hx' hx
  rw [hsplit, htake, hdrop, List.nil_append]

theorem resultStorePut_step (user : String) (rec : Nat → AnalysisRecord)
    (txt : Nat → String) (st : Store) (done : List Nat) (t : Nat)
    (hfilter : st.filter (fun p => pyStartswith p.1 (user ++ "_"))
      = done.map (entryOf user rec txt))
    (hnodup : (dictKeys st).Nodup)
    (hpair : (done ++ [t]).Pairwise (· < ·))
    (hwin : ∀ x ∈ done ++ [t], tsWindow x)
    (hlen : done.length ≤ 10) :
    (resultStorePut st user t (rec t) (txt t)).1.filter
        (fun p => pyStartswith p.1 (user ++ "_"))
      = (lastN 10 (done ++ [t])).map (entryOf user rec txt)
    ∧ (dictKeys (resultStorePut st user t (rec t) (txt t)).1).Nodup := by
  have hdone_t : ∀ t' ∈ done, t' < t := by
    intro t' ht'
    exact (List.pairwise_append.mp hpair).2.2 t' ht' t (by simp)
  have hwind : ∀ t' ∈ done, tsWindow t' := fun t' ht' => hwin t' (List.mem_append_left _ ht')
  have hwt : tsWindow t := hwin t (by simp)
  have hfresh : storageKey user t ∉ dictKeys st :=
    storageKey_not_mem_dictKeys user rec txt st done t hfilter hdone_t hwind hwt
  have hst₁ : dictSet st (storageKey user t) (mkStored (rec t) (txt t) user t)
      = st ++ [entryOf user rec txt t] := dictSet_fresh _ hfresh
  have hfil₁ : (st ++ [entryOf user rec txt t]).filter
      (fun p => pyStartswith p.1 (user ++ "_"))
      = (done ++ [t]).map (entryOf user rec txt) := by
    rw [List.filter_append, hfilter, List.map_append]
    have hpf : pyStartswith (entryOf user rec txt t).1 (user ++ "_") = true :=
      storageKey_startswith user t
    simp [List.filter_cons, hpf]
  have hkeys₁ : dictKeys (st ++ [entryOf user rec txt t]) = dictKeys st ++ [storageKey user t] := by
    simp [dictKeys, entryOf]
  have hnodup₁ : (dictKeys (st ++ [entryOf user rec txt t])).Nodup := by
    rw [hkeys₁, List.nodup_append]
    refine ⟨hnodup, List.nodup_singleton _, ?_⟩
    rw [List.disjoint_left]
    intro a ha hb
    rw [List.mem_singleton] at hb
    exact hfresh (hb ▸ ha)
  have hmapkeys : dictKeys ((done ++ [t]).map (entryOf user rec txt))
      = (done ++ [t]).map (storageKey user) := by
    rw [dictKeys, List.map_map]
    rfl
  have huser_keys : (dictKeys (st ++ [entryOf user rec txt t])).filter
      (fun k => pyStartswith k (user ++ "_"))
      = (done ++ [t]).map (storageKey user) := by
    rw [← dictKeys_filter, hfil₁, hmapkeys]
  have hunfold : (resultStorePut st user t (rec t) (txt t)).1
      = (if ((done ++ [t]).map (storageKey user)).length > 10 then
          ((pySorted ((done ++ [t]).map (storageKey user))).take
              (((done ++ [t]).map (storageKey user)).length - 10)).foldl dictPop
            (st ++ [entryOf user rec txt t])
        else st ++ [entryOf user rec txt t]) := by
    show (let key := storageKey user t
          let storage₁ := dictSet st key (mkStored (rec t) (txt t) user t)
          let user_keys := (dictKeys storage₁).filter (fun k => pyStartswith k (user ++ "_"))
          let storage₂ :=
            if user_keys.length > 10 then
              let oldest_keys := (pySorted user_keys).take (user_keys.length - 10)
              oldest_keys.foldl dictPop storage₁
            else storage₁
          (storage₂, key)).1 = _
    simp only [hst₁, huser_keys]
  rw [hunfold]
  have hlenkeys : ((done ++ [t]).map (storageKey user)).length = done.length + 1 := by
    simp
  by_cases hten : done.length < 10
  · have hguard : ¬ ((done ++ [t]).map (storageKey user)).length > 10 := by omega
    rw [if_neg hguard]
    have hdrop0 : (done ++ [t]).length - 10 = 0 := by
      simp only [List.length_append, List.length_cons, List.length_nil]
      omega
    constructor
    · rw [hfil₁, lastN, hdrop0, List.drop_zero]
    · exact hnodup₁
  · have hten' : done.length = 10 := by omega
    have hguard : ((done ++ [t]).map (storageKey user)).length > 10 := by omega
    rw [if_pos hguard]
    have hkpair : ((done ++ [t]).map (storageKey user)).Pairwise
        (fun a b => pyStrLt a b = true) := by
      rw [List.pairwise_map]
      exact hpair.imp_of_mem (fun ha hb hr =>
        storageKey_lt user hr (hwin _ ha) (hwin _ hb))
    have hsorted : pySorted ((done ++ [t]).map (storageKey user))
        = (done ++ [t]).map (storageKey user) :=
      pySorted_eq_self (pairwise_lt_sorted hkpair)
    have htake : ((done ++ [t]).map (storageKey user)).take
        (((done ++ [t]).map (storageKey user)).length - 10)
        = ((done ++ [t]).take (((done ++ [t]).map (storageKey user)).length - 10)).map
            (storageKey user) := (List.map_take _ _ _).symm
    rw [hsorted, htake, foldl_dictPop]
    have hm : ((done ++ [t]).map (storageKey user)).length - 10 = 1 := by
      rw [hlenkeys]; omega
    rw [hm]
    have hfilfil : ((st ++ [entryOf user rec txt t]).filter (fun p =>
          !(List.elem p.1 (((done ++ [t]).take 1).map (storageKey user))))).filter
        (fun p => pyStartswith p.1 (user ++ "_"))
        = ((st ++ [entryOf user rec txt t]).filter (fun p =>
          pyStartswith p.1 (user ++ "_"))).filter (fun p =>
          !(List.elem p.1 (((done ++ [t]).take 1).map (storageKey user)))) := by
      rw [List.filter_filter, List.filter_filter]
      exact List.filter_congr (fun p _ => Bool.and_comm _ _)
    constructor
    · rw [hfilfil, hfil₁, List.filter_map]
      have hfin : (done ++ [t]).filter ((fun p =>
            !(List.elem p.1 (((done ++ [t]).take 1).map (storageKey user))))
              ∘ entryOf user rec txt)
          = (done ++ [t]).drop 1 := by
        exact filter_not_elem_take user (done ++ [t]) 1 hpair hwin
      rw [hfin, lastN]
      have : (done ++ [t]).length - 10 = 1 := by
        simp only [List.length_append, List.length_cons, List.length_nil]
        omega
      rw [this]
    · have : dictKeys ((st ++ [entryOf user rec txt t]).filter (fun p =>
          !(List.elem p.1 (((done ++ [t]).take 1).map (storageKey user)))))
          = (dictKeys (st ++ [entryOf user rec txt t])).filter (fun k =>
            !(List.elem k (((done ++ [t]).take 1).map (storageKey user)))) :=
        dictKeys_filter (fun k =>
          !(List.elem k (((done ++ [t]).take 1).map (storageKey user)))) (st ++ [entryOf user rec txt t])
      rw [this]
      exact List.Nodup.filter _ hnodup₁

theorem lastN_lastN_append (a b : List Nat) :
    lastN 10 (lastN 10 a ++ b) = lastN 10 (a ++ b) := by
  by_cases h : a.length ≤ 10
  · have h0 : a.length - 10 = 0 := by omega
    have ha : lastN 10 a = a := by
      rw [lastN, h0, List.drop_zero]
    rw [ha]
  · have hk : a.length - 10 ≤ a.length := by omega
    rw [lastN, lastN, lastN, ← List.drop_append_of_le_length hk, List.drop_drop]
    congr 1
    simp only [List.length_drop, List.length_append]
    omega

theorem putSeq_filter (user : String) (rec : Nat → AnalysisRecord) (txt : Nat → String) :
    ∀ (ts done : List Nat) (st : Store),
    (done ++ ts).Pairwise (· < ·) →
    (∀ x ∈ done ++ ts, tsWindow x) →
    done.length ≤ 10 →
    st.filter (fun p => pyStartswith p.1 (user ++ "_")) = done.map (entryOf user rec txt) →
    (dictKeys st).Nodup →
    (putSeq st user rec txt ts).filter (fun p => pyStartswith p.1 (user ++ "_"))
        = (lastN 10 (done ++ ts)).map (entryOf user rec txt)
      ∧ (dictKeys (putSeq st user rec txt ts)).Nodup := by
  intro ts
  induction ts with
  | nil =>
    intro done st _ _ hlen hfilter hnodup
    rw [List.append_nil]
    have h0 : done.length - 10 = 0 := by omega
    constructor
    · show st.filter _ = _
      rw [lastN, h0, List.drop_zero]
      exact hfilter
    · exact hnodup
  | cons t ts ih =>
    intro done st hpair hwin hlen hfilter hnodup
    rw [List.append_cons] at hpair hwin ⊢
    have hpair₁ : (done ++ [t]).Pairwise (· < ·) :=
      List.Pairwise.sublist (List.sublist_append_left (done ++ [t]) ts) hpair
    have hwin₁ : ∀ x ∈ done ++ [t], tsWindow x :=
      fun x hx => hwin x (List.mem_append_left ts hx)
    obtain ⟨hfil', hnod'⟩ :=
      resultStorePut_step user rec txt st done t hfilter hnodup hpair₁ hwin₁ hlen
    have hputSeq : putSeq st user rec txt (t :: ts)
        = putSeq ((resultStorePut st user t (rec t) (txt t)).1) user rec txt ts := by
      rw [putSeq, List.foldl_cons]
      rfl
    rw [hputSeq]
    have hsubapp : (lastN 10 (done ++ [t]) ++ ts).Sublist ((done ++ [t]) ++ ts) :=
      (List.drop_sublist _ _).append_right ts
    have hpair' : (lastN 10 (done ++ [t]) ++ ts).Pairwise (· < ·) :=
      List.Pairwise.sublist hsubapp hpair
    have hwin' : ∀ x ∈ lastN 10 (done ++ [t]) ++ ts, tsWindow x :=
      fun x hx => hwin x (hsubapp.subset hx)
    have hlen' : (lastN 10 (done ++ [t])).length ≤ 10 := by
      rw [lastN, List.length_drop]
      omega
    obtain ⟨hA, hB⟩ := ih (lastN 10 (done ++ [t]))
      ((resultStorePut st user t (rec t) (txt t)).1) hpair' hwin' hlen' hfil' hnod'
    refine ⟨?_, hB⟩
    rw [hA, lastN_lastN_append]

/-- C1: for every user identifier, after 11 sequential put operations into the
Result Store for that user — at strictly increasing wall-clock seconds (ten
decimal digits each, as every epoch second of 2001-2286 is), starting from a
store holding no key of that user — exactly 10 entries whose keys are prefixed
by the user identifier remain, and they are the entries of the 10 most recent
puts: the oldest entry is evicted. -/
theorem C1_put_retention (user : String) (rec : Nat → AnalysisRecord)
    (txt : Nat → String) (ts : List Nat) (st₀ : Store)
    (hlen : ts.length = 11)
    (hinc : ts.Pairwise (· < ·))
    (hwin : ∀ t ∈ ts, tsWindow t)
    (hclean : ∀ p ∈ st₀, pyStartswith p.1 (user ++ "_") = false)
    (hnodup : (dictKeys st₀).Nodup) :
    ((putSeq st₀ user rec txt ts).filter
        (fun p => pyStartswith p.1 (user ++ "_"))).length = 10
    ∧ (putSeq st₀ user rec txt ts).filter (fun p => pyStartswith p.1 (user ++ "_"))
        = (ts.drop 1).map (entryOf user rec txt) := by
  have hfilter : st₀.filter (fun p => pyStartswith p.1 (user ++ "_"))
      = ([] : List Nat).map (entryOf user rec txt) := by
    rw [List.map_nil, List.filter_eq_nil]
    intro p hp
    rw [hclean p hp]
    intro hc
    exact Bool.noConfusion hc
  obtain ⟨hA, _⟩ := putSeq_filter user rec txt ts [] st₀
    (by rw [List.nil_append]; exact hinc)
    (by rw [List.nil_append]; exact hwin)
    (by simp)
    hfilter hnodup
  rw [List.nil_append] at hA
  have hdrop : lastN 10 ts = ts.drop 1 := by
    rw [lastN, hlen]
  constructor
  · rw [hA, hdrop, List.length_map, List.length_drop, hlen]
  · rw [hA, hdrop]

/-! ### Lemmas: the `most_recent` lookup -/

theorem getLast?_not_mem_take {l : List String} {x : String} {m : Nat}
    (hl : l.getLast? = some x) (hnd : l.Nodup) (hm : m < l.length) :
    x ∉ l.take m := by
  intro hx
  have hdropne : l.drop m ≠ [] := by
    intro hc
    have hc' := congrArg List.length hc
    rw [List.length_drop] at hc'
    simp only [List.length_nil] at hc'
    omega
  have hglast : (l.drop m).getLast? = some x := by
    conv at hl => rw [← List.take_append_drop m l]
    rw [List.getLast?_append] at hl
    cases hgd : (l.drop m).getLast? with
    | none => exact absurd (List.getLast?_eq_none.mp hgd) hdropne
    | some y =>
      rw [hgd] at hl
      simpa using hl
  have hxdrop : x ∈ l.drop m := by
    obtain ⟨h, hx'⟩ := List.mem_getLast?_eq_getLast
      (show x ∈ (l.drop m).getLast? from hglast)
    rw [hx']
    exact List.getLast_mem h
  have hdisj := (List.nodup_append.mp
    (by rw [List.take_append_drop m l]; exact hnd)).2.2
  exact hdisj hx hxdrop

/-- When `key` is the strict maximum of the user-prefixed keys of the store,
`most_recent` returns exactly the value stored at `key`. -/
theorem most_recent_eq_of_max (storage : Store) (user : String) (key : String)
    (hmem : key ∈ (dictKeys storage).filter (fun k => pyStartswith k (user ++ "_")))
    (hmax : ∀ y ∈ (dictKeys storage).filter (fun k => pyStartswith k (user ++ "_")),
        y = key ∨ pyStrLt y key = true) :
    most_recent storage user = dictGet storage key := by
  have hne : (dictKeys storage).filter (fun k => pyStartswith k (user ++ "_")) ≠ [] :=
    List.ne_nil_of_mem hmem
  have hE : ((dictKeys storage).filter (fun k => pyStartswith k (user ++ "_"))).isEmpty
      = false := by
    cases hE : ((dictKeys storage).filter (fun k => pyStartswith k (user ++ "_"))).isEmpty with
    | false => rfl
    | true => exact absurd (List.isEmpty_iff.mp hE) hne
  have hlast : (pySorted ((dictKeys storage).filter
      (fun k => pyStartswith k (user ++ "_")))).getLast? = some key :=
    sorted_getLast?_max (pySorted_sorted _) (pySorted_mem.mpr hmem)
      (fun y hy => hmax y (pySorted_mem.mp hy))
  show (let user_keys := (dictKeys storage).filter (fun k => pyStartswith k (user ++ "_"))
        if user_keys.isEmpty then none
        else match (pySorted user_keys).getLast? with
          | some latest_key => dictGet storage latest_key
          | none => none) = _
  simp only [hE, hlast, Bool.false_eq_true, if_false]

/-- C2: a Result Store put followed immediately by `most_recent` for the same
user returns the stored entry (its analysis record, extracted text and user
identifier are what was just stored), provided — as the spec notes of the
monotonically increasing timestamped keys — every key already present for
that user sorts strictly below the new key, and no other put interleaves. -/
theorem C2_put_most_recent_roundtrip (storage : Store) (user : String) (t : Nat)
    (rec : AnalysisRecord) (txt : String)
    (hnodup : (dictKeys storage).Nodup)
    (hmax : ∀ k ∈ dictKeys storage, pyStartswith k (user ++ "_") = true →
      pyStrLt k (storageKey user t) = true) :
    most_recent (resultStorePut storage user t rec txt).1 user
      = some (mkStored rec txt user t) := by
  have hpf : pyStartswith (storageKey user t) (user ++ "_") = true :=
    storageKey_startswith user t
  have hfresh : storageKey user t ∉ dictKeys storage := by
    intro hmem
    have h := hmax (storageKey user t) hmem hpf
    rw [pyStrLt, charsLt_irrefl] at h
    exact Bool.noConfusion h
  have hst₁ : dictSet storage (storageKey user t) (mkStored rec txt user t)
      = storage ++ [(storageKey user t, mkStored rec txt user t)] := dictSet_fresh _ hfresh
  have hkeys₁ : dictKeys (storage ++ [(storageKey user t, mkStored rec txt user t)])
      = dictKeys storage ++ [storageKey user t] := by
    simp [dictKeys]
  have hnodup₁ : (dictKeys (storage ++ [(storageKey user t, mkStored rec txt user t)])).Nodup := by
    rw [hkeys₁, List.nodup_append]
    refine ⟨hnodup, List.nodup_singleton _, ?_⟩
    rw [List.disjoint_left]
    intro a ha hb
    rw [List.mem_singleton] at hb
    exact hfresh (hb ▸ ha)
  have hKS : (dictKeys (storage ++ [(storageKey user t, mkStored rec txt user t)])).filter
      (fun k => pyStartswith k (user ++ "_"))
      = (dictKeys storage).filter (fun k => pyStartswith k (user ++ "_"))
        ++ [storageKey user t] := by
    rw [hkeys₁, List.filter_append]
    simp [List.filter_cons, hpf]
  have hKSnodup : ((dictKeys (storage ++ [(storageKey user t, mkStored rec txt user t)])).filter
      (fun k => pyStartswith k (user ++ "_"))).Nodup := List.Nodup.filter _ hnodup₁
  have hmem_lt : ∀ y ∈ (dictKeys (storage ++ [(storageKey user t, mkStored rec txt user t)])).filter
      (fun k => pyStartswith k (user ++ "_")),
      y = storageKey user t ∨ pyStrLt y (storageKey user t) = true := by
    intro y hy
    rw [hKS] at hy
    rcases List.mem_append.mp hy with hy | hy
    · obtain ⟨hy₁, hy₂⟩ := List.mem_filter.mp hy
      exact Or.inr (hmax y hy₁ hy₂)
    · exact Or.inl (List.mem_singleton.mp hy)
  have hkeyKS : storageKey user t ∈ (dictKeys (storage
      ++ [(storageKey user t, mkStored rec txt user t)])).filter
      (fun k => pyStartswith k (user ++ "_")) := by
    rw [hKS]
    exact List.mem_append_right _ (by simp)
  have hget₁ : dictGet (storage ++ [(storageKey user t, mkStored rec txt user t)])
      (storageKey user t) = some (mkStored rec txt user t) := by
    rw [dictGet_append_right hfresh]
    simp [dictGet]
  have hunfold : (resultStorePut storage user t rec txt).1
      = (if ((dictKeys (storage ++ [(storageKey user t, mkStored rec txt user t)])).filter
            (fun k => pyStartswith k (user ++ "_"))).length > 10 then
          ((pySorted ((dictKeys (storage ++ [(storageKey user t, mkStored rec txt user t)])).filter
              (fun k => pyStartswith k (user ++ "_")))).take
            (((dictKeys (storage ++ [(storageKey user t, mkStored rec txt user t)])).filter
              (fun k => pyStartswith k (user ++ "_"))).length - 10)).foldl dictPop
            (storage ++ [(storageKey user t, mkStored rec txt user t)])
        else storage ++ [(storageKey user t, mkStored rec txt user t)]) := by
    show (let key := storageKey user t
          let storage₁ := dictSet storage key (mkStored rec txt user t)
          let user_keys := (dictKeys storage₁).filter (fun k => pyStartswith k (user ++ "_"))
          let storage₂ :=
            if user_keys.length > 10 then
              let oldest_keys := (pySorted user_keys).take (user_keys.length - 10)
              oldest_keys.foldl dictPop storage₁
            else storage₁
          (storage₂, key)).1 = _
    simp only [hst₁]
  rw [hunfold]
  by_cases hguard : ((dictKeys (storage ++ [(storageKey user t, mkStored rec txt user t)])).filter
      (fun k => pyStartswith k (user ++ "_"))).length > 10
  · rw [if_pos hguard]
    set OK := (dictKeys (storage ++ [(storageKey user t, mkStored rec txt user t)])).filter
      (fun k => pyStartswith k (user ++ "_")) with hOKdef
    set oldest := (pySorted OK).take (OK.length - 10) with holddef
    have hlastOK : (pySorted OK).getLast? = some (storageKey user t) :=
      sorted_getLast?_max (pySorted_sorted OK) (pySorted_mem.mpr hkeyKS)
        (fun y hy => hmem_lt y (pySorted_mem.mp hy))
    have hnotmem : storageKey user t ∉ oldest := by
      rw [holddef]
      refine getLast?_not_mem_take hlastOK ((pySorted_perm OK).symm.nodup hKSnodup) ?_
      rw [(pySorted_perm OK).length_eq]
      omega
    have helem : List.elem (storageKey user t) oldest = false := by
      cases h : List.elem (storageKey user t) oldest with
      | false => rfl
      | true => exact absurd (List.elem_iff.mp h) hnotmem
    rw [foldl_dictPop]
    have hq : (fun k => !(List.elem k oldest)) (storageKey user t) = true := by
      simpa using hnotmem
    have hget₂ : dictGet ((storage ++ [(storageKey user t, mkStored rec txt user t)]).filter
        (fun p => !(List.elem p.1 oldest))) (storageKey user t)
        = some (mkStored rec txt user t) := by
      rw [dictGet_filter_key (fun k => !(List.elem k oldest)) hq, hget₁]
    have hkeys₂ : dictKeys ((storage ++ [(storageKey user t, mkStored rec txt user t)]).filter
        (fun p => !(List.elem p.1 oldest)))
        = (dictKeys (storage ++ [(storageKey user t, mkStored rec txt user t)])).filter
          (fun k => !(List.elem k oldest)) :=
      dictKeys_filter (fun k => !(List.elem k oldest)) _
    have hmem₂ : storageKey user t ∈ (dictKeys ((storage
        ++ [(storageKey user t, mkStored rec txt user t)]).filter
        (fun p => !(List.elem p.1 oldest)))).filter (fun k => pyStartswith k (user ++ "_")) := by
      rw [hkeys₂]
      refine List.mem_filter.mpr ⟨List.mem_filter.mpr ⟨?_, hq⟩, hpf⟩
      exact (List.mem_filter.mp hkeyKS).1
    have hmax₂ : ∀ y ∈ (dictKeys ((storage
        ++ [(storageKey user t, mkStored rec txt user t)]).filter
        (fun p => !(List.elem p.1 oldest)))).filter (fun k => pyStartswith k (user ++ "_")),
        y = storageKey user t ∨ pyStrLt y (storageKey user t) = true := by
      intro y hy
      rw [hkeys₂] at hy
      obtain ⟨hy₁, hy₂⟩ := List.mem_filter.mp hy
      obtain ⟨hy₃, _⟩ := List.mem_filter.mp hy₁
      exact hmem_lt y (List.mem_filter.mpr ⟨hy₃, hy₂⟩)
    rw [most_recent_eq_of_max _ user (storageKey user t) hmem₂ hmax₂]
    exact hget₂
  · rw [if_neg hguard]
    rw [most_recent_eq_of_max _ user (storageKey user t) hkeyKS hmem_lt]
    exact hget₁

/-- Witness for C1: eleven concrete puts on an empty store. -/
theorem C1_put_retention_witness :
    ([1700000001, 1700000002, 1700000003, 1700000004, 1700000005, 1700000006,
      1700000007, 1700000008, 1700000009, 1700000010, 1700000011] : List Nat).Pairwise (· < ·)
    ∧ (((putSeq [] "user@example.com" (fun _ => get_loan_demo_data) (fun _ => "source text")
          [1700000001, 1700000002, 1700000003, 1700000004, 1700000005, 1700000006,
            1700000007, 1700000008, 1700000009, 1700000010, 1700000011]).filter
          (fun p => pyStartswith p.1 ("user@example.com" ++ "_"))).length = 10
      ∧ (putSeq [] "user@example.com" (fun _ => get_loan_demo_data) (fun _ => "source text")
          [1700000001, 1700000002, 1700000003, 1700000004, 1700000005, 1700000006,
            1700000007, 1700000008, 1700000009, 1700000010, 1700000011]).filter
          (fun p => pyStartswith p.1 ("user@example.com" ++ "_"))
          = (([1700000001, 1700000002, 1700000003, 1700000004, 1700000005, 1700000006,
              1700000007, 1700000008, 1700000009, 1700000010, 1700000011] : List Nat).drop 1).map
              (entryOf "user@example.com" (fun _ => get_loan_demo_data)
                (fun _ => "source text"))) :=
  ⟨by decide,
   C1_put_retention "user@example.com" (fun _ => get_loan_demo_data) (fun _ => "source text")
     [1700000001, 1700000002, 1700000003, 1700000004, 1700000005, 1700000006,
       1700000007, 1700000008, 1700000009, 1700000010, 1700000011] []
     rfl (by decide) (by decide) (by simp) (by decide)⟩

/-- Witness for C2: one concrete put on an empty store, then `most_recent`. -/
theorem C2_put_most_recent_roundtrip_witness :
    (dictKeys ([] : Store)).Nodup
    ∧ most_recent (resultStorePut [] "user@example.com" 1700000000 get_loan_demo_data
          "monthly rent").1 "user@example.com"
      = some (mkStored get_loan_demo_data "monthly rent" "user@example.com" 1700000000) :=
  ⟨by decide,
   C2_put_most_recent_roundtrip [] "user@example.com" 1700000000 get_loan_demo_data
     "monthly rent" (by decide) (by simp [dictKeys])⟩

/-! ### File-type detection and extraction claims -/

/-- C6: for every byte string beginning with one of the supported signatures
and every declared media type passed alongside it, `_detect_file_type` returns
the signature-implied media type, ignoring the declared one. -/
theorem C6_detect_signature_wins :
    (∀ (rest : List Nat) (mime : String),
      _detect_file_type ([0x25, 0x50, 0x44, 0x46] ++ rest) mime = "application/pdf")
    ∧ (∀ (rest : List Nat) (mime : String),
      _detect_file_type ([0xff, 0xd8, 0xff] ++ rest) mime = "image/jpeg")
    ∧ (∀ (rest : List Nat) (mime : String),
      _detect_file_type ([0x89, 0x50, 0x4e, 0x47] ++ rest) mime = "image/png")
    ∧ (∀ (rest : List Nat) (mime : String),
      _detect_file_type ([0x47, 0x49, 0x46, 0x38, 0x37, 0x61] ++ rest) mime = "image/gif")
    ∧ (∀ (rest : List Nat) (mime : String),
      _detect_file_type ([0x47, 0x49, 0x46, 0x38, 0x39, 0x61] ++ rest) mime = "image/gif")
    ∧ (∀ (rest : List Nat) (mime : String),
      _detect_file_type ([0x42, 0x4d] ++ rest) mime = "image/bmp")
    ∧ (∀ (a b c d : Nat) (rest : List Nat) (mime : String),
      _detect_file_type ([0x52, 0x49, 0x46, 0x46, a, b, c, d, 0x57, 0x45, 0x42, 0x50] ++ rest)
        mime = "image/webp")
    ∧ (∀ (rest : List Nat) (mime : String),
      _detect_file_type ([0x49, 0x49, 0x2a, 0x00] ++ rest) mime = "image/tiff")
    ∧ (∀ (rest : List Nat) (mime : String),
      _detect_file_type ([0x4d, 0x4d, 0x00, 0x2a] ++ rest) mime = "image/tiff") := by
  refine ⟨?_, ?_, ?_, ?_, ?_, ?_, ?_, ?_, ?_⟩ <;> intros <;>
    simp [_detect_file_type, List.isPrefixOf, byteInfix]

/-- Python `strip` of a string starting with the extraction header is never
empty: the leading `D` is not whitespace. -/
theorem pyStrip_header_ne_empty (rest : String) :
    pyStrip ("Document processed using: " ++ rest) ≠ "" := by
  intro hc
  have hdata : ((((("Document processed using: " ++ rest).data.dropWhile
      isPySpace).reverse.dropWhile isPySpace).reverse) : List Char) = [] :=
    congrArg String.data hc
  have hmem_drop : ∀ (p : Char → Bool) (x : Char) (l : List Char),
      x ∈ l → p x = false → x ∈ l.dropWhile p := by
    intro p x l hx hp
    have hx' : x ∈ l.takeWhile p ++ l.dropWhile p := by
      rw [List.takeWhile_append_dropWhile]
      exact hx
    rcases List.mem_append.mp hx' with h | h
    · have := List.mem_takeWhile_imp h
      rw [hp] at this
      exact Bool.noConfusion this
    · exact h
  have h1 : ('D' : Char) ∈ ("Document processed using: " ++ rest).data := by
    rw [String.data_append]
    exact List.mem_append_left _ (by decide)
  have hD : isPySpace 'D' = false := by decide
  have h2 := hmem_drop isPySpace 'D' _ h1 hD
  have h3 := List.mem_reverse.mpr h2
  have h4 := hmem_drop isPySpace 'D' _ h3 hD
  have h5 := List.mem_reverse.mpr h4
  rw [hdata] at h5
  cases h5

/-- C8: for every input whose detected media type is neither PDF nor an image
type, `process_document` returns normally with confidence 0 and a text
containing the descriptive placeholder naming the unsupported type. -/
theorem C8_unsupported_type_placeholder (fc : List Nat) (mime now ts : String)
    (pdfE : List Nat → Except String (List String))
    (gemE : List Nat → String → String)
    (hpdf : _detect_file_type fc mime ≠ "application/pdf")
    (himg : pyStartswith (_detect_file_type fc mime) "image/" = false) :
    (process_document fc mime now ts pdfE gemE).confidence = 0
    ∧ ∃ pre, (process_document fc mime now ts pdfE gemE).text
        = pre ++ ("Unsupported file type: " ++ _detect_file_type fc mime
            ++ " (original: " ++ mime ++ ")") := by
  have hb : (_detect_file_type fc mime == "application/pdf") = false := by
    simpa using hpdf
  constructor
  · simp only [process_document, hb, himg, Bool.false_eq_true, if_false]
    norm_num
    exact ⟨by decide, by decide⟩
  · refine ⟨"Document processed using: " ++ ("unsupported" ++ ("\nMIME Type: "
      ++ (_detect_file_type fc mime ++ ("\nProcessed at: " ++ (now ++ "\n\n"))))), ?_⟩
    simp only [process_document, hb, himg, Bool.false_eq_true, if_false]
    simp [String.append_assoc]

/-- C10: on every input on which it returns, `process_document` yields a text
beginning with the processing-metadata header, that text is never
whitespace-only, and consequently the empty-extracted-text 400 rejection of
`analyze_document_file` can never fire on an extraction this extractor
produced. -/
theorem C10_extraction_text_never_blank (fc : List Nat) (ct now ts : String)
    (pdfE : List Nat → Except String (List String))
    (gemE : List Nat → String → String)
    (fn user title : String) (st : Store) (mcp : String → String → MCPResult) :
    (∃ rest, (process_document fc ct now ts pdfE gemE).text
        = "Document processed using: " ++ rest)
    ∧ pyStrip (process_document fc ct now ts pdfE gemE).text ≠ ""
    ∧ (analyze_document_file fc ct fn user title st
          (fun b m => process_document b m now ts pdfE gemE) mcp).response
        ≠ Except.error (HTTPError.mk 400 "No text could be extracted from the document") := by
  have hdr : ∃ rest, (process_document fc ct now ts pdfE gemE).text
      = "Document processed using: " ++ rest := by
    refine ⟨?_, ?_⟩
    · exact (process_document fc ct now ts pdfE gemE).processing_method ++ ("\nMIME Type: "
        ++ (_detect_file_type fc ct ++ ("\nProcessed at: " ++ (now ++ ("\n\n"
        ++ (if _detect_file_type fc ct == "application/pdf" then
              match pdfE fc with
              | Except.ok page_texts =>
                let all_text := page_texts.enum.filterMap (fun pt =>
                  if pyStrip pt.2 == "" then none
                  else some ("=== Page " ++ natStr (pt.1 + 1) ++ " ===\n" ++ pt.2))
                if all_text.isEmpty then
                  "No text could be extracted from this PDF. The document may contain only images or scanned content."
                else String.intercalate "\n\n" all_text
              | Except.error pdf_error => "Error extracting text from PDF: " ++ pdf_error
            else if pyStartswith (_detect_file_type fc ct) "image/" then
              gemE fc (_detect_file_type fc ct)
            else
              "Unsupported file type: " ++ _detect_file_type fc ct
                ++ " (original: " ++ ct ++ ")"))))))
    · show (process_document fc ct now ts pdfE gemE).text = _
      simp only [process_document]
      cases hp : (_detect_file_type fc ct == "application/pdf")
      · cases hi : pyStartswith (_detect_file_type fc ct) "image/"
        · simp [hp, hi]
        · simp [hp, hi]
      · simp [hp]
  obtain ⟨rest, hrest⟩ := hdr
  have hne : pyStrip (process_document fc ct now ts pdfE gemE).text ≠ "" := by
    rw [hrest]
    exact pyStrip_header_ne_empty rest
  refine ⟨⟨rest, hrest⟩, hne, ?_⟩
  have hbeq : (pyStrip (process_document fc ct now ts pdfE gemE).text == "") = false := by
    simpa using hne
  show (analyze_document_file fc ct fn user title st
      (fun b m => process_document b m now ts pdfE gemE) mcp).response ≠ _
  simp only [analyze_document_file, hbeq, Bool.false_eq_true, if_false]
  cases hs : (mcp (process_document fc ct now ts pdfE gemE).text user).success
  · simp [hs]
  · simp [hs]

/-- Witness for C8: empty bytes with a declared plain-text type. -/
theorem C8_unsupported_type_placeholder_witness :
    _detect_file_type [] "text/plain" ≠ "application/pdf"
    ∧ ((process_document [] "text/plain" "2025-11-02T15:45:00" "20251102_154500"
          (fun _ => Except.ok []) (fun _ _ => "")).confidence = 0
      ∧ ∃ pre, (process_document [] "text/plain" "2025-11-02T15:45:00" "20251102_154500"
          (fun _ => Except.ok []) (fun _ _ => "")).text
        = pre ++ ("Unsupported file type: " ++ _detect_file_type [] "text/plain"
            ++ " (original: " ++ "text/plain" ++ ")")) :=
  ⟨by decide,
   C8_unsupported_type_placeholder [] "text/plain" "2025-11-02T15:45:00" "20251102_154500"
     (fun _ => Except.ok []) (fun _ _ => "") (by decide) (by decide)⟩

/-! ### Error-handling claims on the endpoints -/

/-- C4: for every upload whose extracted text is empty or whitespace-only
after trimming, `analyze_document_file` returns a 400 client error, leaves the
Result Store untouched, performs no flush, and its outcome is independent of
the Analyzer oracle (no Analyzer call is consulted). -/
theorem C4_empty_extraction_rejected (fc : List Nat) (ct fn user title : String)
    (st : Store) (extract : List Nat → String → ExtractionResult)
    (mcp mcp₂ : String → String → MCPResult)
    (h : pyStrip (extract fc ct).text = "") :
    (analyze_document_file fc ct fn user title st extract mcp).response
        = Except.error (HTTPError.mk 400 "No text could be extracted from the document")
    ∧ (analyze_document_file fc ct fn user title st extract mcp).storage = st
    ∧ (analyze_document_file fc ct fn user title st extract mcp).saved = false
    ∧ analyze_document_file fc ct fn user title st extract mcp
        = analyze_document_file fc ct fn user title st extract mcp₂ := by
  have hb : (pyStrip (extract fc ct).text == "") = true := by simpa using h
  refine ⟨?_, ?_, ?_, ?_⟩ <;> simp [analyze_document_file, hb]

/-- Witness for C4: a whitespace-only extraction result. -/
theorem C4_empty_extraction_rejected_witness :
    pyStrip ((fun (_ : List Nat) (_ : String) =>
        ExtractionResult.mk "   " 1 [] [] 0.95 "pdf_pymupdf" "application/pdf" "f.txt")
        [] "application/pdf").text = ""
    ∧ (analyze_document_file [] "application/pdf" "a.pdf" "bob@example.com" "Doc" []
        (fun _ _ => ExtractionResult.mk "   " 1 [] [] 0.95 "pdf_pymupdf" "application/pdf" "f.txt")
        (fun _ _ => MCPResult.mk true get_loan_demo_data "")).response
      = Except.error (HTTPError.mk 400 "No text could be extracted from the document") :=
  ⟨by decide,
   (C4_empty_extraction_rejected [] "application/pdf" "a.pdf" "bob@example.com" "Doc" []
     (fun _ _ => ExtractionResult.mk "   " 1 [] [] 0.95 "pdf_pymupdf" "application/pdf" "f.txt")
     (fun _ _ => MCPResult.mk true get_loan_demo_data "")
     (fun _ _ => MCPResult.mk false get_loan_demo_data "x") (by decide)).1⟩

/-- C7: for every non-demo comprehensive-analysis request whose routed MCP
result is unsuccessful, the endpoint fails with a 500 carrying the underlying
cause, the Result Store is unchanged, and no flush to the storage file runs. -/
theorem C7_analyzer_failure_no_write (request : ComprehensiveAnalysisRequest)
    (st : Store) (now : Nat) (mcp : String → String → MCPResult)
    (hdemo : is_demo_user request.user_email = false)
    (hfail : (mcp request.extracted_text request.user_email).success = false) :
    (comprehensive_legal_analysis request st now mcp).response
        = Except.error (HTTPError.mk 500
            ("Analysis failed: " ++ (mcp request.extracted_text request.user_email).error))
    ∧ (comprehensive_legal_analysis request st now mcp).storage = st
    ∧ (comprehensive_legal_analysis request st now mcp).saved = false := by
  refine ⟨?_, ?_, ?_⟩ <;> simp [comprehensive_legal_analysis, hdemo, hfail]

/-- Witness for C7: a failing analyzer oracle for a non-demo user. -/
theorem C7_analyzer_failure_no_write_witness :
    is_demo_user "bob@example.com" = false
    ∧ (comprehensive_legal_analysis ⟨"some text", "bob@example.com", "Doc"⟩ [] 1700000000
        (fun _ _ => MCPResult.mk false get_loan_demo_data "LLM timeout")).response
      = Except.error (HTTPError.mk 500 ("Analysis failed: " ++ "LLM timeout"))
    ∧ (comprehensive_legal_analysis ⟨"some text", "bob@example.com", "Doc"⟩ [] 1700000000
        (fun _ _ => MCPResult.mk false get_loan_demo_data "LLM timeout")).storage = [] :=
  ⟨by decide,
   (C7_analyzer_failure_no_write ⟨"some text", "bob@example.com", "Doc"⟩ [] 1700000000
     (fun _ _ => MCPResult.mk false get_loan_demo_data "LLM timeout")
     (by decide) (by decide)).1,
   (C7_analyzer_failure_no_write ⟨"some text", "bob@example.com", "Doc"⟩ [] 1700000000
     (fun _ _ => MCPResult.mk false get_loan_demo_data "LLM timeout")
     (by decide) (by decide)).2.1⟩

/-! ### Demo-mode claims -/

/-- The full outcome of a demo-mode comprehensive-analysis call, as one
record: no part of it consults the MCP oracle. -/
theorem comprehensive_demo_eq (r : ComprehensiveAnalysisRequest) (s : Store) (n : Nat)
    (m : String → String → MCPResult) (hd : is_demo_user r.user_email = true) :
    comprehensive_legal_analysis r s n m =
      { response := Except.ok
          { success := true
            document_summary := (get_demo_analysis_data r.document_title).document_summary
            legal_terms := (get_demo_analysis_data r.document_title).legal_terms_and_meanings
            risk_analysis := (get_demo_analysis_data r.document_title).risk_analysis
            applicable_laws := (get_demo_analysis_data r.document_title).applicable_laws
            processing_metadata :=
              { base := (get_demo_analysis_data r.document_title).processing_metadata
                storage_key := storageKey r.user_email n
                demo_mode := true } }
        storage := dictSet s (storageKey r.user_email n)
          (mkStored (get_demo_analysis_data r.document_title) r.extracted_text r.user_email n)
        saved := true } := by
  simp [comprehensive_legal_analysis, hd]

/-- C5: for every request by the demo account (case-insensitive
`smp@gmail.com`), the comprehensive-analysis outcome never consults the
Analyzer oracle, the returned analysis record is `get_demo_analysis_data` of
the document title — hence a deterministic function of the title alone — and
the title keywords select the rental, internship/NDA, Tamil or default loan
fixture in the priority order of the source. -/
theorem C5_demo_mode_deterministic
    (req req' : ComprehensiveAnalysisRequest) (st st' : Store) (now now' : Nat)
    (mcp mcp₂ : String → String → MCPResult)
    (hdemo : is_demo_user req.user_email = true)
    (hdemo' : is_demo_user req'.user_email = true) :
    comprehensive_legal_analysis req st now mcp = comprehensive_legal_analysis req st now mcp₂
    ∧ (∃ resp, (comprehensive_legal_analysis req st now mcp).response = Except.ok resp
        ∧ responseRecord resp = get_demo_analysis_data req.document_title)
    ∧ (req'.document_title = req.document_title →
        ∃ resp resp', (comprehensive_legal_analysis req st now mcp).response = Except.ok resp
          ∧ (comprehensive_legal_analysis req' st' now' mcp₂).response = Except.ok resp'
          ∧ responseRecord resp' = responseRecord resp)
    ∧ ((pyContains (pyLower req.document_title) "rental"
          || pyContains (pyLower req.document_title) "rent") = true →
        get_demo_analysis_data req.document_title = get_rental_demo_data)
    ∧ ((pyContains (pyLower req.document_title) "rental"
          || pyContains (pyLower req.document_title) "rent") = false →
       (pyContains (pyLower req.document_title) "internship"
          || pyContains (pyLower req.document_title) "nda"
          || pyContains (pyLower req.document_title) "confidentiality") = true →
        get_demo_analysis_data req.document_title = get_internship_demo_data)
    ∧ ((pyContains (pyLower req.document_title) "rental"
          || pyContains (pyLower req.document_title) "rent") = false →
       (pyContains (pyLower req.document_title) "internship"
          || pyContains (pyLower req.document_title) "nda"
          || pyContains (pyLower req.document_title) "confidentiality") = false →
       (pyContains (pyLower req.document_title) "kadan"
          || pyContains (pyLower req.document_title) "tamil"
          || pyContains req.document_title "கடன்") = true →
        get_demo_analysis_data req.document_title = get_tamil_demo_data)
    ∧ ((pyContains (pyLower req.document_title) "rental"
          || pyContains (pyLower req.document_title) "rent") = false →
       (pyContains (pyLower req.document_title) "internship"
          || pyContains (pyLower req.document_title) "nda"
          || pyContains (pyLower req.document_title) "confidentiality") = false →
       (pyContains (pyLower req.document_title) "kadan"
          || pyContains (pyLower req.document_title) "tamil"
          || pyContains req.document_title "கடன்") = false →
        get_demo_analysis_data req.document_title = get_loan_demo_data) := by
  refine ⟨?_, ?_, ?_, ?_, ?_, ?_, ?_⟩
  · rw [comprehensive_demo_eq req st now mcp hdemo, comprehensive_demo_eq req st now mcp₂ hdemo]
  · rw [comprehensive_demo_eq req st now mcp hdemo]
    exact ⟨_, rfl, rfl⟩
  · intro hteq
    rw [comprehensive_demo_eq req st now mcp hdemo,
      comprehensive_demo_eq req' st' now' mcp₂ hdemo']
    refine ⟨_, _, rfl, rfl, ?_⟩
    show get_demo_analysis_data req'.document_title = get_demo_analysis_data req.document_title
    rw [hteq]
  · intro h1
    simp [get_demo_analysis_data, h1]
  · intro h1 h2
    simp [get_demo_analysis_data, h1, h2]
  · intro h1 h2 h3
    simp [get_demo_analysis_data, h1, h2, h3]
  · intro h1 h2 h3
    simp [get_demo_analysis_data, h1, h2, h3]

/-- Witness for C5: two demo requests with the rental title. -/
theorem C5_demo_mode_deterministic_witness :
    is_demo_user "SMP@gmail.com" = true
    ∧ ∃ resp, (comprehensive_legal_analysis ⟨"text", "SMP@gmail.com", "Rental Agreement"⟩
        [] 1700000000 (fun _ _ => MCPResult.mk false get_loan_demo_data "ignored")).response
          = Except.ok resp
        ∧ responseRecord resp = get_demo_analysis_data "Rental Agreement" :=
  ⟨by decide,
   (C5_demo_mode_deterministic ⟨"text", "SMP@gmail.com", "Rental Agreement"⟩
     ⟨"other", "smp@GMAIL.com", "Rental Agreement"⟩ [] [] 1700000000 1700000001
     (fun _ _ => MCPResult.mk false get_loan_demo_data "ignored")
     (fun _ _ => MCPResult.mk true get_rental_demo_data "")
     (by decide) (by decide)).2.1⟩

/-- C9: the title classifier of the demo analysis fixtures and the title
classifier of the demo static PDF paths agree: every title selects a matching
(fixture record, PDF path) pair. -/
theorem C9_demo_classifiers_agree (title : String) :
    (get_demo_analysis_data title = get_rental_demo_data
      ∧ get_demo_pdf_path title = "C:\\Codes-here\\VS Project\\LegalLens\\rental_result.pdf")
    ∨ (get_demo_analysis_data title = get_internship_demo_data
      ∧ get_demo_pdf_path title = "C:\\Codes-here\\VS Project\\LegalLens\\result_intern.pdf")
    ∨ (get_demo_analysis_data title = get_tamil_demo_data
      ∧ get_demo_pdf_path title = "C:\\Codes-here\\VS Project\\LegalLens\\result_kadan.pdf")
    ∨ (get_demo_analysis_data title = get_loan_demo_data
      ∧ get_demo_pdf_path title = "C:\\Codes-here\\VS Project\\LegalLens\\loan_result.pdf") := by
  cases h1 : (pyContains (pyLower title) "rental" || pyContains (pyLower title) "rent") with
  | true =>
    left
    simp [get_demo_analysis_data, get_demo_pdf_path, h1]
  | false =>
    cases h2 : (pyContains (pyLower title) "internship" || pyContains (pyLower title) "nda"
        || pyContains (pyLower title) "confidentiality") with
    | true =>
      right; left
      simp [get_demo_analysis_data, get_demo_pdf_path, h1, h2]
    | false =>
      cases h3 : (pyContains (pyLower title) "kadan" || pyContains (pyLower title) "tamil"
          || pyContains title "கடன்") with
      | true =>
        right; right; left
        simp [get_demo_analysis_data, get_demo_pdf_path, h1, h2, h3]
      | false =>
        right; right; right
        simp [get_demo_analysis_data, get_demo_pdf_path, h1, h2, h3]

/-! ### The missing-input branch of /generate-pdf-from-document (C3) -/

set_option maxRecDepth 4096 in
/-- C3 (code bug): at a concrete request of a non-demo user with an empty
store and no extracted text, the body raises the guidance HTTPException 400,
but the endpoint surfaces it as a 500 server error — the catch-all
`except Exception` swallows the HTTPException (this endpoint alone lacks the
`except HTTPException: raise` clause of its siblings), so the claimed 4xx
client error never reaches the caller. -/
theorem C3_missing_input_surfaced_as_500 :
    (generate_pdf_from_document
        { document_id := "doc-1", document_title := none,
          user_email := "alice@example.com", extracted_text := none }
        [] 1700000000 (fun _ => none) (fun _ _ => get_loan_demo_data)
        (fun _ _ => [])).response
      = Except.error (HTTPError.mk 500
          ("PDF generation failed: 400: No analysis data available for PDF generation for user \x27alice@example.com\x27. Please perform document analysis first, then try downloading the PDF again."))
    ∧ (generate_pdf_from_document_body
        { document_id := "doc-1", document_title := none,
          user_email := "alice@example.com", extracted_text := none }
        [] 1700000000 (fun _ => none) (fun _ _ => get_loan_demo_data)
        (fun _ _ => [])).response
      = Except.error (HTTPError.mk 400
          "No analysis data available for PDF generation for user \x27alice@example.com\x27. Please perform document analysis first, then try downloading the PDF again.")
    ∧ ¬(400 ≤ (500 : Nat) ∧ (500 : Nat) < 500) := by
  refine ⟨by decide, by decide, by omega⟩

end LegalLens
